import Mathlib

/-!
# ecsman: a verification development

A shallow embedding of the decision logic of the `ecsman` command-line tool
(`src/main.go`, `src/components/*.go`) together with theorems about it.

Conventions of the embedding:

* a Go `string` is a finite byte sequence, embedded as `List Char`, one list
  element per byte;
* a run of a component is a value of `Run α`: the trace of what the process did
  (lines written to standard output and requests sent to the remote services, in
  order) and how it ended (normally with a value, by `os.Exit`, or by a run-time
  panic);
* the remote services, the file system and the JSON decoder are parameters
  (`Aws`, `Host`): the theorems quantify over everything they may answer.
-/

set_option autoImplicit false

namespace Ecsman

/-! ## Strings -/

/-- A Go string: a finite sequence of bytes, one list element per byte. -/
abbrev GoString := List Char

/-- Go `strings.Split(s, sep)` for a one-byte separator: the segments of `s` between
consecutive occurrences of `sep`, in order. There is always at least one segment and
segments may be empty. -/
def strSplit (sep : Char) : GoString → List GoString
  | [] => [[]]
  | c :: cs =>
    if c = sep then [] :: strSplit sep cs
    else
      match strSplit sep cs with
      | [] => [[c]]
      | seg :: segs => (c :: seg) :: segs

/-- Go slice indexing `xs[i]` on a slice of strings, as an option: `none` is the
run-time panic "index out of range". -/
def index? {α : Type} (xs : List α) (i : Nat) : Option α := xs.get? i

/-- Function `getRevisionFromTaskDefinition` (src/components/tasks.go, lines 296-303). -/
def getRevisionFromTaskDefinition (taskDefinition : GoString) : GoString :=
  let splits := strSplit '/' taskDefinition
  if splits.length > 1 then
    (index? splits (splits.length - 1)).getD []
  else
    "unknown".toList

/-- Go `strings.HasPrefix(s, p)`. -/
def strHasPrefix (s p : GoString) : Bool := p.isPrefixOf s

/-- Go `strings.Index(s, sub)`: the byte offset of the first occurrence of `sub` in
`s`, or `-1` when there is none. -/
def strIndex : GoString → GoString → Int
  | [], sub => if sub = [] then 0 else -1
  | c :: cs, sub =>
    if sub.isPrefixOf (c :: cs) then 0
    else
      let r := strIndex cs sub
      if r = -1 then -1 else r + 1

/-- Go slice expression `s[lo:hi]` on a string, as an option: `none` is the run-time
panic "slice bounds out of range". -/
def slice? (s : GoString) (lo hi : Int) : Option GoString :=
  if 0 ≤ lo ∧ lo ≤ hi ∧ hi ≤ (s.length : Int) then
    some ((s.drop lo.toNat).take (hi.toNat - lo.toNat))
  else
    none

/-! ## Formatting (package `fmt`) -/

/-- Operands separated by single spaces, as `fmt.Println` and `fmt.Sprintln` lay
them out. -/
def joinSpace : List GoString → GoString
  | [] => []
  | [a] => a
  | a :: b :: rest => a ++ ' ' :: joinSpace (b :: rest)

/-- Go `fmt.Sprintln`: operands separated by spaces, followed by a newline. -/
def Sprintln (operands : List GoString) : GoString := joinSpace operands ++ ['\n']

/-- Decimal rendering of a Go `int` / `int64` operand. -/
def fmtInt (i : Int) : GoString := (Int.repr i).toList

/-- Decimal rendering of a non-negative Go `int` (a length or a counter). -/
def fmtNat (n : Nat) : GoString := (Nat.repr n).toList

/-! ## Data model (the fields of the remote resources that the code reads)

Every field that the code dereferences is taken to be present: a `nil` field in a
successful answer is outside the model. -/

structure Task where
  TaskArn : GoString
  TaskDefinitionArn : GoString
  DesiredStatus : GoString
  LastStatus : GoString
deriving DecidableEq

structure LoadBalancer where
  LoadBalancerName : GoString
  ContainerName : GoString
  ContainerPort : Int
deriving DecidableEq

structure Deployment where
  Id : GoString
  Status : GoString
  RunningCount : Int
deriving DecidableEq

/-- A service event; `CreatedAt` is the timestamp as `%s` renders it. -/
structure ServiceEvent where
  CreatedAt : GoString
  Message : GoString
deriving DecidableEq

structure Service where
  ServiceName : GoString
  Status : GoString
  TaskDefinition : GoString
  RunningCount : Int
  DesiredCount : Int
  PendingCount : Int
  LoadBalancers : List LoadBalancer
  Deployments : List Deployment
  Events : List ServiceEvent
deriving DecidableEq

structure KeyValuePair where
  Name : GoString
  Value : GoString
deriving DecidableEq

structure PortMapping where
  ContainerPort : Int
  HostPort : Int
deriving DecidableEq

structure ContainerDefinition where
  Command : List GoString
  Cpu : Int
  EntryPoint : List GoString
  Environment : List KeyValuePair
  Essential : Bool
  Image : GoString
  Memory : Int
  Name : GoString
  PortMappings : List PortMapping
deriving DecidableEq

/-- A task definition; `Volumes` is carried through unread. -/
structure TaskDefinition where
  Family : GoString
  Revision : Int
  Status : GoString
  TaskDefinitionArn : GoString
  ContainerDefinitions : List ContainerDefinition
  Volumes : List GoString
deriving DecidableEq

structure Instance where
  InstanceId : GoString
deriving DecidableEq

structure LoadBalancerDescription where
  LoadBalancerName : GoString
  DNSName : GoString
  Instances : List Instance
deriving DecidableEq

/-- One element of `TaskDefn.ContainerDefinitions` (src/components/tasks.go,
lines 178-191). -/
structure TaskDefnContainer where
  Command : List GoString
  CPU : Int
  EntryPoint : List GoString
  Environment : List KeyValuePair
  Essential : Bool
  Image : GoString
  Memory : Int
  Name : GoString
  PortMappings : List PortMapping
deriving DecidableEq

/-- Type `TaskDefn`: the layout of the task-definition JSON file. -/
structure TaskDefn where
  ContainerDefinitions : List TaskDefnContainer
  Family : GoString
deriving DecidableEq

/-! ## Runs: traces and outcomes -/

/-- A request sent to a remote service. -/
inductive Request where
  | ListServices (cluster : GoString)
  | DescribeServices (cluster : GoString) (services : List GoString)
  | ListTasks (cluster : GoString) (service : GoString)
  | DescribeTasks (cluster : GoString) (tasks : List GoString)
  | DescribeTaskDefinition (taskDefinition : GoString)
  | RegisterTaskDefinition (family : GoString) (containers : List ContainerDefinition)
      (volumes : List GoString)
  | UpdateService (cluster : GoString) (service : GoString) (taskDefinition : GoString)
  | ListTaskDefinitions (familyPrefix : Option GoString)
  | DescribeLoadBalancers (names : List GoString)
deriving DecidableEq

/-- What the process does that is visible from outside, one step at a time. -/
inductive Event where
  | out (text : GoString)
  | call (request : Request)
deriving DecidableEq

/-- How a run ends: normally with a value, by `os.Exit(code)`, or by a run-time panic
(index or slice bounds out of range, `nil` dereference). -/
inductive Outcome (α : Type) where
  | ok (value : α)
  | exit (code : Nat)
  | panic
deriving DecidableEq

/-- A run of a piece of the program: its trace and its outcome. -/
structure Run (α : Type) where
  trace : List Event
  outcome : Outcome α
deriving DecidableEq

namespace Run

def ret {α : Type} (a : α) : Run α := ⟨[], .ok a⟩

/-- Sequencing: the second part runs only when the first ended normally. -/
def andThen {α β : Type} (m : Run α) (f : α → Run β) : Run β :=
  match m.outcome with
  | .ok a => ⟨m.trace ++ (f a).trace, (f a).outcome⟩
  | .exit c => ⟨m.trace, .exit c⟩
  | .panic => ⟨m.trace, .panic⟩

instance : Monad Run where
  pure := ret
  bind := andThen

end Run

/-- Write one string to standard output. -/
def emit (text : GoString) : Run Unit := ⟨[.out text], .ok ()⟩

/-- Go `fmt.Println`. -/
def Println (operands : List GoString) : Run Unit := emit (Sprintln operands)

/-- Go `os.Exit`. -/
def osExit {α : Type} (code : Nat) : Run α := ⟨[], .exit code⟩

/-- A run-time panic. -/
def goPanic {α : Type} : Run α := ⟨[], .panic⟩

/-- An answer of a remote service (or of the host): a value, or an error message. -/
abbrev Reply (α : Type) := Except GoString α

/-- The `err` half of a Go `(output, err)` pair. -/
def Reply.err {α : Type} : Reply α → Option GoString
  | .ok _ => none
  | .error e => some e

/-- Send a request: it is recorded in the trace and the answer is handed back. -/
def call {α : Type} (request : Request) (reply : Reply α) : Run (Reply α) :=
  ⟨[.call request], .ok reply⟩

/-- Reading the fields of the output half of a Go `(output, err)` pair. When the call
failed the SDK hands back an output whose fields are `nil`, so reading through them
panics. -/
def output {α : Type} : Reply α → Run α
  | .ok a => pure a
  | .error _ => goPanic

/-- Go indexing `xs[i]` inside a run: out of range panics. -/
def indexM {α : Type} (xs : List α) (i : Nat) : Run α :=
  match index? xs i with
  | some a => pure a
  | none => goPanic

/-- Go slicing `s[lo:hi]` inside a run: bounds out of range panic. -/
def sliceM (s : GoString) (lo hi : Int) : Run GoString :=
  match slice? s lo hi with
  | some t => pure t
  | none => goPanic

/-- A Go `if` statement without `else`: the body runs when the condition holds and
the statements that follow run afterwards, unless the body ended the run. -/
def whenever (c : Prop) [Decidable c] (body : Run Unit) : Run Unit :=
  if c then body else pure ()

/-- A `for _, x := range xs` loop without loop-carried variables. -/
def forEach {α : Type} : List α → (α → Run Unit) → Run Unit
  | [], _ => pure ()
  | x :: xs, body => do
    body x
    forEach xs body

/-- A `for _, x := range xs` loop whose body updates the variables `s`. -/
def forFold {α σ : Type} : List α → σ → (σ → α → Run σ) → Run σ
  | [], s, _ => pure s
  | x :: xs, s, body => do
    let s1 ← body s x
    forFold xs s1 body

/-- A `for i, x := range xs` loop whose body updates the variables `s`; `i` counts
from `start`. -/
def forFoldIdx {α σ : Type} : List α → Nat → σ → (σ → Nat → α → Run σ) → Run σ
  | [], _, s, _ => pure s
  | x :: xs, i, s, body => do
    let s1 ← body s i x
    forFoldIdx xs (i + 1) s1 body

/-- The remote services (ECS and ELB), as the answers they give to each request. -/
structure Aws where
  ListServices : GoString → Reply (List GoString)
  DescribeServices : GoString → List GoString → Reply (List Service)
  ListTasks : GoString → GoString → Reply (List GoString)
  DescribeTasks : GoString → List GoString → Reply (List Task)
  DescribeTaskDefinition : GoString → Reply TaskDefinition
  RegisterTaskDefinition : GoString → List ContainerDefinition → List GoString →
    Reply TaskDefinition
  UpdateService : GoString → GoString → GoString → Reply Service
  ListTaskDefinitions : Option GoString → Reply (List GoString)
  DescribeLoadBalancers : List GoString → Reply (List LoadBalancerDescription)

/-- What the program takes from the machine it runs on and from the Go run time:
file contents (`ioutil.ReadFile`), the JSON decoder (`json.Unmarshal` into a
`TaskDefn`), the `%v` rendering of a slice of string pointers, and the order in
which `range` visits the entries of a map. -/
structure Host where
  ReadFile : GoString → Reply GoString
  Unmarshal : GoString → Reply TaskDefn
  fmtPointers : List GoString → GoString
  rangeOrder : List (GoString × GoString) → List (GoString × GoString)

/-! ## src/components/util.go -/

/-- Function `CheckError` (src/components/util.go, lines 22-27). -/
def CheckError (action : GoString) (err : Option GoString) : Run Unit :=
  match err with
  | some e => do
    Println ["Error".toList, action, "==>".toList, e]
    osExit 1
  | none => pure ()

/-- Function `PrintSeparator` (src/components/util.go, lines 30-32). -/
def PrintSeparator : Run Unit :=
  Println [List.replicate 95 '-']

/-! ## src/components/tasks.go -/

/-- The body of the loop over container definitions in `PrintTaskDefinition`
(src/components/tasks.go, lines 32-52). -/
def printContainerDefinition (host : Host) (verboseFlag : Bool)
    (containerDef : ContainerDefinition) : Run Unit := do
  Println ["    - Container Definition:".toList]
  Println ["      - Image:".toList, containerDef.Image]
  whenever verboseFlag do
    Println ["      - CPU:".toList, fmtInt containerDef.Cpu]
    Println ["      - Memory:".toList, fmtInt containerDef.Memory]
  forEach containerDef.PortMappings fun portMap =>
    Println ["      - Container Port".toList, fmtInt portMap.ContainerPort,
      ": Host Port".toList, fmtInt portMap.HostPort]
  whenever (containerDef.Command.length > 0) do
    emit ("      - Command: ".toList ++ host.fmtPointers containerDef.Command ++ ['\n'])
  whenever (containerDef.EntryPoint.length > 0) do
    emit ("      - Entry Point: ".toList ++ host.fmtPointers containerDef.EntryPoint ++ ['\n'])
  whenever (containerDef.Environment.length > 0 ∧ verboseFlag) do
    Println ["      - Environment:".toList]
    forEach containerDef.Environment fun envVariable =>
      Println ["       ".toList, envVariable.Name, "=".toList, envVariable.Value]

/-- Function `PrintTaskDefinition` (src/components/tasks.go, lines 23-54). -/
def PrintTaskDefinition (aws : Aws) (host : Host) (taskDefinition : GoString)
    (verboseFlag : Bool) : Run Unit := do
  let reply ← call (.DescribeTaskDefinition taskDefinition)
    (aws.DescribeTaskDefinition taskDefinition)
  CheckError ("fetching Task Definition for ".toList ++ taskDefinition) reply.err
  let taskDef ← output reply
  Println ["  - Task Definition:".toList, taskDefinition]
  Println ["    - Family:".toList, taskDef.Family]
  forEach taskDef.ContainerDefinitions (printContainerDefinition host verboseFlag)

/-- Function `getServiceTasks` (src/components/tasks.go, lines 275-291). -/
def getServiceTasks (aws : Aws) (clusterName serviceName : GoString) : Run (List Task) := do
  let reply ← call (.ListTasks clusterName serviceName) (aws.ListTasks clusterName serviceName)
  CheckError "fetching task list for service".toList reply.err
  let taskArns ← output reply
  if taskArns.length > 0 then
    let reply2 ← call (.DescribeTasks clusterName taskArns)
      (aws.DescribeTasks clusterName taskArns)
    CheckError "fetching task data for service".toList reply2.err
    let tasks ← output reply2
    pure tasks
  else
    pure []

/-- Function `PrintServiceTasks` (src/components/tasks.go, lines 59-70). -/
def PrintServiceTasks (aws : Aws) (clusterName serviceName taskDefinition : GoString) :
    Run Unit := do
  let taskRevision := getRevisionFromTaskDefinition taskDefinition
  let tasks ← getServiceTasks aws clusterName serviceName
  forEach tasks fun task => do
    Println ["  - Task".toList, task.TaskArn]
    Println ["    Task Def:".toList, task.TaskDefinitionArn]
    Println ["    Desired status".toList, task.DesiredStatus, "- Last status".toList,
      task.LastStatus]
    whenever (taskRevision ≠ getRevisionFromTaskDefinition task.TaskDefinitionArn) do
      Println ["    *** WARNING: task does not have the same task/revision as the service definition ***".toList]

/-- The revision-mismatch warning built in `CheckServiceTasks`
(src/components/tasks.go, line 91). -/
def revisionWarning (taskRevision serviceTaskRevision : GoString) : GoString :=
  Sprintln ["WARNING: task uses".toList, taskRevision, "but service definition is".toList,
    serviceTaskRevision]

/-- The warning built in `CheckServiceTasks` when no task is running
(src/components/tasks.go, line 95). -/
def noRunningWarning : GoString :=
  Sprintln ["WARNING: No tasks in RUNNING state for the service".toList]

/-- The body of the loop over tasks in `CheckServiceTasks` (src/components/tasks.go,
lines 81-92), on the loop-carried variables `(taskWarnings, taskRunning)`. The
counter is a Go `int`; it counts elements of a slice held in memory and cannot
overflow. -/
def checkTask (verboseFlag : Bool) (serviceTaskRevision : GoString)
    (st : List GoString × Nat) (task : Task) : List GoString × Nat :=
  let taskWarnings := st.1
  let taskRunning := st.2
  let taskWarnings :=
    if verboseFlag then
      taskWarnings ++ [Sprintln ["  - Task".toList, task.TaskArn]]
        ++ [Sprintln ["    Task Def:".toList, task.TaskDefinitionArn]]
        ++ [Sprintln ["    Desired status".toList, task.DesiredStatus,
              "- Last status".toList, task.LastStatus]]
    else taskWarnings
  let taskRunning := if task.LastStatus = "RUNNING".toList then taskRunning + 1 else taskRunning
  let taskRevision := getRevisionFromTaskDefinition task.TaskDefinitionArn
  let taskWarnings :=
    if serviceTaskRevision ≠ taskRevision then
      taskWarnings ++ [revisionWarning taskRevision serviceTaskRevision]
    else taskWarnings
  (taskWarnings, taskRunning)

/-- Function `CheckServiceTasks` (src/components/tasks.go, lines 72-98). -/
def CheckServiceTasks (aws : Aws) (clusterName serviceName : GoString) (verboseFlag : Bool)
    (serviceTaskDefinition : GoString) : Run (List GoString × Nat) := do
  let taskWarnings : List GoString := []
  let serviceTaskRevision := getRevisionFromTaskDefinition serviceTaskDefinition
  let tasks ← getServiceTasks aws clusterName serviceName
  let taskRunning := 0
  let (taskWarnings, taskRunning) :=
    tasks.foldl (checkTask verboseFlag serviceTaskRevision) (taskWarnings, taskRunning)
  let taskWarnings :=
    if taskRunning = 0 then taskWarnings ++ [noRunningWarning] else taskWarnings
  pure (taskWarnings, taskRunning)

/-- Go map assignment `m[k] = v`. A Go map is embedded as a list of entries with
distinct keys. -/
def mapSet (m : List (GoString × GoString)) (k v : GoString) : List (GoString × GoString) :=
  match m with
  | [] => [(k, v)]
  | (k1, v1) :: rest => if k1 = k then (k, v) :: rest else (k1, v1) :: mapSet rest k v

/-- The body of the loop over listed identifiers in `PrintTasks`
(src/components/tasks.go, lines 150-164), on the loop-carried map `families`. -/
def printTasksStep (aws : Aws) (host : Host) (taskFamily taskRevision wantedRevision : GoString)
    (total : Nat) (families : List (GoString × GoString)) (taskIndex : Nat)
    (taskdef : GoString) : Run (List (GoString × GoString)) := do
  let revision := getRevisionFromTaskDefinition taskdef
  if taskFamily = [] then
    let splitRevision := strSplit ':' revision
    let family ← indexM splitRevision 0
    let rev ← indexM splitRevision 1
    pure (mapSet families family rev)
  else
    if wantedRevision = "latest".toList then
      whenever (taskIndex + 1 = total) do
        PrintTaskDefinition aws host taskdef true
      pure families
    else
      whenever (taskRevision = [] ∨ wantedRevision = revision) do
        PrintTaskDefinition aws host taskdef true
      pure families

/-- Function `PrintTasks` (src/components/tasks.go, lines 133-172). -/
def PrintTasks (aws : Aws) (host : Host) (taskFamily taskRevision : GoString) : Run Unit := do
  let wantedRevision :=
    if taskRevision = "latest".toList then "latest".toList
    else taskFamily ++ ":".toList ++ taskRevision
  let familyPrefix := if taskFamily ≠ [] then some taskFamily else none
  let reply ← call (.ListTaskDefinitions familyPrefix) (aws.ListTaskDefinitions familyPrefix)
  CheckError "fetching task definitions list".toList reply.err
  let taskDefinitionArns ← output reply
  let families ← forFoldIdx taskDefinitionArns 0 []
    (printTasksStep aws host taskFamily taskRevision wantedRevision taskDefinitionArns.length)
  whenever (taskFamily = []) do
    Println ["Task Definition families:".toList]
    forEach (host.rangeOrder families) fun entry =>
      emit ("  ".toList ++ entry.1 ++ " (latest revision: ".toList ++ entry.2 ++ ")\n".toList)

/-- Function `makeTaskDefinition` (src/components/tasks.go, lines 221-268). -/
def makeTaskDefinition (host : Host) (taskFile : GoString) :
    Run (ContainerDefinition × GoString) := do
  let fileBytes := host.ReadFile taskFile
  CheckError ("Error reading task file ".toList ++ taskFile) fileBytes.err
  let bytes ← output fileBytes
  let parsed := host.Unmarshal bytes
  CheckError ("Error reading task file ".toList ++ taskFile) parsed.err
  let taskJSON ← output parsed
  whenever (taskJSON.ContainerDefinitions.length > 1) do
    Println ["Right now I only support a single ContainerDefinition, sorry. Please edit and try again.".toList]
    osExit 1
  let c0 ← indexM taskJSON.ContainerDefinitions 0
  let defn : ContainerDefinition :=
    { Cpu := c0.CPU
      Command := c0.Command
      EntryPoint := c0.EntryPoint
      Environment := c0.Environment.map fun kv => { Name := kv.Name, Value := kv.Value }
      Essential := c0.Essential
      Image := c0.Image
      Memory := c0.Memory
      Name := c0.Name
      PortMappings := c0.PortMappings.map fun pm =>
        { ContainerPort := pm.ContainerPort, HostPort := pm.HostPort } }
  pure (defn, taskJSON.Family)

/-- Function `CreateTask` (src/components/tasks.go, lines 196-215). -/
def CreateTask (aws : Aws) (host : Host) (taskFile : GoString) : Run Unit := do
  emit "Registering Task Definition...\n\n".toList
  let (containerDefinition, taskFamily) ← makeTaskDefinition host taskFile
  let containerDefs := [containerDefinition]
  let reply ← call (.RegisterTaskDefinition taskFamily containerDefs [])
    (aws.RegisterTaskDefinition taskFamily containerDefs [])
  CheckError "registering task definition".toList reply.err
  let taskDefinition ← output reply
  Println ["Registered new Task Definition:".toList]
  Println ["  - Family:".toList, taskDefinition.Family]
  Println ["  - Revision:".toList, fmtInt taskDefinition.Revision]
  Println ["  - Status:".toList, taskDefinition.Status]

/-! ## src/components/elbs.go -/

/-- Function `GetElbData` (src/components/elbs.go, lines 42-55). -/
def GetElbData (aws : Aws) (loadBalancers : List GoString) :
    Run (List LoadBalancerDescription) := do
  let reply ← call (.DescribeLoadBalancers loadBalancers) (aws.DescribeLoadBalancers loadBalancers)
  CheckError "fetching load balancer data".toList reply.err
  output reply

/-! ## src/components/services.go -/

/-- The body of the loop over the events to print in `PrintServices`
(src/components/services.go, lines 75-93), for the event at index `eventCount`. -/
def printEvent (aws : Aws) (clusterName : GoString) (events : List ServiceEvent)
    (eventCount : Nat) : Run Unit := do
  let event ← indexM events eventCount
  emit ("    At ".toList ++ event.CreatedAt ++ ": ".toList ++ event.Message ++ ['\n'])
  let eventMessage := event.Message
  let pos := strIndex eventMessage "(task ".toList
  whenever (pos ≠ -1) do
    let taskID ← sliceM eventMessage (pos + 6) ((eventMessage.length : Int) - 2)
    let reply ← call (.DescribeTasks clusterName [taskID]) (aws.DescribeTasks clusterName [taskID])
    CheckError ("getting task data for ".toList ++ taskID ++ ['\n']) reply.err
    let tasks ← output reply
    if tasks.length < 1 then
      Println ["      Request for task data returned no results.".toList]
    else
      let task0 ← indexM tasks 0
      Println ["      Task:".toList, task0.TaskDefinitionArn]
      Println ["      Last known status:".toList, task0.LastStatus]

/-- The event listing of one service in `PrintServices` (src/components/services.go,
lines 69-95). It returns the value that the variable `eventsFlag` holds afterwards. -/
def printEvents (aws : Aws) (clusterName : GoString) (events : List ServiceEvent)
    (eventsFlag : Int) : Run Int := do
  if eventsFlag > 0 ∧ events.length > 0 then
    emit ("  - Events (most recent ".toList ++ fmtInt eventsFlag ++ "):\n".toList)
    let eventsFlag : Int := if events.length < 10 then (events.length : Int) else eventsFlag
    forEach (List.range eventsFlag.toNat) (printEvent aws clusterName events)
    pure eventsFlag
  else
    pure eventsFlag

/-- The variables that the loop over services in `PrintServices` carries along. -/
structure PrintServicesVars where
  foundService : Bool
  loadBalancers : List GoString
  eventsFlag : Int
deriving DecidableEq

/-- What `PrintServices` prints for one service that passes the name filter
(src/components/services.go, lines 55-96). -/
def printServiceDetails (aws : Aws) (host : Host) (clusterName : GoString)
    (verboseFlag : Bool) (vars : PrintServicesVars) (service : Service) :
    Run PrintServicesVars := do
  PrintSeparator
  Println ["  Service:".toList, service.ServiceName]
  Println ["  - Running Count:".toList, fmtInt service.RunningCount]
  Println ["  - Status:".toList, service.Status]
  forEach service.LoadBalancers fun balancer => do
    Println ["  - Load Balancer:".toList, balancer.LoadBalancerName, "Port:".toList,
      fmtInt balancer.ContainerPort]
    Println ["    Container Name:".toList, balancer.ContainerName]
  let loadBalancers :=
    vars.loadBalancers ++ service.LoadBalancers.map fun balancer => balancer.LoadBalancerName
  forEach service.Deployments fun depl => do
    Println ["  - Deployment:".toList, depl.Id, "Status:".toList, depl.Status]
    Println ["    Running instances:".toList, fmtInt depl.RunningCount]
  PrintServiceTasks aws clusterName service.ServiceName service.TaskDefinition
  let eventsFlag ← printEvents aws clusterName service.Events vars.eventsFlag
  PrintTaskDefinition aws host service.TaskDefinition verboseFlag
  pure { vars with loadBalancers := loadBalancers, eventsFlag := eventsFlag }

/-- The body of the loop over services in `PrintServices`
(src/components/services.go, lines 52-101). -/
def printService (aws : Aws) (host : Host) (clusterName serviceName : GoString)
    (verboseFlag : Bool) (vars : PrintServicesVars) (service : Service) :
    Run PrintServicesVars := do
  let vars ←
    (if serviceName = [] ∨ serviceName = service.ServiceName then
      printServiceDetails aws host clusterName verboseFlag vars service
    else
      pure vars)
  if serviceName = service.ServiceName then
    pure { vars with foundService := true }
  else
    pure vars

/-- The line that `PrintServices` prints when the requested service was not met
(src/components/services.go, line 105). -/
def notFoundLine (serviceName : GoString) : GoString :=
  Sprintln ["  Service".toList, serviceName, "not found.".toList]

/-- Function `PrintServices` (src/components/services.go, lines 21-108). -/
def PrintServices (aws : Aws) (host : Host) (clusterName serviceName : GoString)
    (verboseFlag : Bool) (eventsFlag : Int) : Run (List GoString) := do
  let foundService := false
  let reply ← call (.ListServices clusterName) (aws.ListServices clusterName)
  CheckError ("finding services for cluster ".toList ++ clusterName) reply.err
  let serviceArns ← output reply
  Println [fmtNat serviceArns.length, "Services in cluster".toList, clusterName]
  let reply2 ← call (.DescribeServices clusterName serviceArns)
    (aws.DescribeServices clusterName serviceArns)
  CheckError ("fetching service data for cluster ".toList ++ clusterName) reply2.err
  let services ← output reply2
  let loadBalancers : List GoString := []
  let vars ←
    (if services.length = 0 then do
      Println ["  No services to describe.".toList]
      pure { foundService := foundService, loadBalancers := loadBalancers,
             eventsFlag := eventsFlag : PrintServicesVars }
    else
      forFold services
        { foundService := foundService, loadBalancers := loadBalancers, eventsFlag := eventsFlag }
        (printService aws host clusterName serviceName verboseFlag))
  whenever (serviceName ≠ [] ∧ vars.foundService = false) do
    emit (notFoundLine serviceName)
  pure vars.loadBalancers

/-- Assignment through the pointer `ContainerDefinitions[0].Image`
(src/components/services.go, line 156). -/
def setImage0 (containers : List ContainerDefinition) (image : GoString) :
    List ContainerDefinition :=
  match containers with
  | [] => []
  | c :: rest => { c with Image := image } :: rest

/-- Function `UpdateService` (src/components/services.go, lines 116-179). -/
def UpdateService (aws : Aws) (clusterName serviceName newImage : GoString) : Run Unit := do
  whenever (newImage = []) do
    Println ["Error: You must specify a new image URL to update the image!".toList]
    osExit 1
  let updateTag := strHasPrefix newImage ":".toList
  Println ["Updating service".toList, serviceName]
  let reply ← call (.DescribeServices clusterName [serviceName])
    (aws.DescribeServices clusterName [serviceName])
  CheckError ("fetching service data for service ".toList ++ serviceName) reply.err
  let services ← output reply
  whenever (services.length = 0) do
    emit ("Error: Got zero services for name ".toList ++ serviceName ++ ['\n'])
    osExit 1
  let service0 ← indexM services 0
  let reply2 ← call (.DescribeTaskDefinition service0.TaskDefinition)
    (aws.DescribeTaskDefinition service0.TaskDefinition)
  let taskDefn ← output reply2
  whenever (taskDefn.ContainerDefinitions.length > 1) do
    Println ["Apologies, this service has multiple containers and I only support one right now.".toList]
    osExit 1
  let newImage ←
    (if updateTag then do
      let container0 ← indexM taskDefn.ContainerDefinitions 0
      let urlParts := strSplit ':' container0.Image
      whenever (urlParts.length > 2) do
        Println ["Split on colon found more than two elements in current image URL".toList]
        osExit 1
      let part0 ← indexM urlParts 0
      pure (part0 ++ newImage)
    else
      pure newImage)
  Println ["  - Task Definition:".toList, taskDefn.Family]
  let container0 ← indexM taskDefn.ContainerDefinitions 0
  Println ["  - Current image:".toList, container0.Image]
  Println ["  - Updating to:".toList, newImage]
  let containers := setImage0 taskDefn.ContainerDefinitions newImage
  let reply3 ← call (.RegisterTaskDefinition taskDefn.Family containers taskDefn.Volumes)
    (aws.RegisterTaskDefinition taskDefn.Family containers taskDefn.Volumes)
  CheckError "registering updated task definition".toList reply3.err
  let registered ← output reply3
  Println ["  -> Task definition updated, registered as revision".toList,
    fmtInt registered.Revision]
  let reply4 ← call (.UpdateService clusterName serviceName registered.TaskDefinitionArn)
    (aws.UpdateService clusterName serviceName registered.TaskDefinitionArn)
  CheckError "updating service with new task definition".toList reply4.err
  let updated ← output reply4
  Println ["  -> Service updated with new task definition:".toList]
  Println ["     - Desired count:".toList, fmtInt updated.DesiredCount]
  Println ["     - Pending count:".toList, fmtInt updated.PendingCount]
  Println ["     - Running count:".toList, fmtInt updated.RunningCount]
  Println ["     - Service status:".toList, updated.Status]

/-- The warning that `CheckService` prints when the two counts differ
(src/components/services.go, line 215). -/
def elbWarning (elbCount taskRunning : Nat) : GoString :=
  Sprintln ["WARNING: ELB instance count of".toList, fmtNat elbCount,
    "is different from number of running tasks".toList, fmtNat taskRunning]

/-- Function `CheckService` (src/components/services.go, lines 185-217). The counter
`elbCount` is a Go `int`; it sums lengths of slices held in memory and cannot
overflow. -/
def CheckService (aws : Aws) (clusterName serviceName : GoString) (verboseFlag : Bool) :
    Run Unit := do
  let reply ← call (.DescribeServices clusterName [serviceName])
    (aws.DescribeServices clusterName [serviceName])
  CheckError "getting service information".toList reply.err
  let services ← output reply
  whenever (services.length < 1) do
    Println ["Attempt to fetch service data for".toList, serviceName, "returned no data!".toList]
    osExit 1
  let serviceDef ← indexM services 0
  let (taskWarnings, taskRunning) ←
    CheckServiceTasks aws clusterName serviceName verboseFlag serviceDef.TaskDefinition
  forEach taskWarnings fun msg => Println [msg]
  let elbCount := 0
  let balancerNames := serviceDef.LoadBalancers.map fun bals => bals.LoadBalancerName
  let serviceElbs ← GetElbData aws balancerNames
  let elbCount := serviceElbs.foldl (fun count balancer => count + balancer.Instances.length) elbCount
  whenever (elbCount ≠ taskRunning) do
    emit (elbWarning elbCount taskRunning)

/-! ## Vocabulary of the statements -/

/-- The remote services when nothing answers: every request fails. -/
def silentAws : Aws where
  ListServices := fun _ => .error "unavailable".toList
  DescribeServices := fun _ _ => .error "unavailable".toList
  ListTasks := fun _ _ => .error "unavailable".toList
  DescribeTasks := fun _ _ => .error "unavailable".toList
  DescribeTaskDefinition := fun _ => .error "unavailable".toList
  RegisterTaskDefinition := fun _ _ _ => .error "unavailable".toList
  UpdateService := fun _ _ _ => .error "unavailable".toList
  ListTaskDefinitions := fun _ => .error "unavailable".toList
  DescribeLoadBalancers := fun _ => .error "unavailable".toList

/-- A host without files, whose map iteration follows the stored order. -/
def plainHost : Host where
  ReadFile := fun _ => .error "no such file".toList
  Unmarshal := fun _ => .error "unexpected end of JSON input".toList
  fmtPointers := fun _ => "[]".toList
  rangeOrder := fun m => m

/-- A task on the given task-definition reference with the given last status. -/
def taskOn (ref status : GoString) : Task :=
  { TaskArn := "arn:task".toList, TaskDefinitionArn := ref,
    DesiredStatus := "RUNNING".toList, LastStatus := status }

/-- Remote services that answer the task requests with the given tasks. -/
def awsWithTasks (tasks : List Task) : Aws :=
  { silentAws with
    ListTasks := fun _ _ => .ok (tasks.map fun t => t.TaskArn)
    DescribeTasks := fun _ _ => .ok tasks }

/-- The revision-mismatch warnings that a list of tasks calls for: one for each task
whose revision key differs from the service revision key, in task order. -/
def mismatchWarnings (serviceTaskRevision : GoString) (tasks : List Task) : List GoString :=
  (tasks.filter fun t =>
      decide (getRevisionFromTaskDefinition t.TaskDefinitionArn ≠ serviceTaskRevision)).map
    fun t => revisionWarning (getRevisionFromTaskDefinition t.TaskDefinitionArn) serviceTaskRevision

/-- What one task adds to the list that `CheckServiceTasks` returns: in verbose mode
its three descriptive entries, then its revision-mismatch warning if its revision key
differs from the service revision key. -/
def taskLines (verboseFlag : Bool) (serviceTaskRevision : GoString) (task : Task) :
    List GoString :=
  (if verboseFlag then
      [Sprintln ["  - Task".toList, task.TaskArn],
       Sprintln ["    Task Def:".toList, task.TaskDefinitionArn],
       Sprintln ["    Desired status".toList, task.DesiredStatus, "- Last status".toList,
         task.LastStatus]]
    else []) ++
  mismatchWarnings serviceTaskRevision [task]

/-- The number of tasks whose last status is exactly `RUNNING`. -/
def runningCount (tasks : List Task) : Nat :=
  tasks.countP fun t => decide (t.LastStatus = "RUNNING".toList)

/-- Two strings that differ at a position which both have: no extension of one is
an extension of the other. -/
def clash : GoString → GoString → Bool
  | a :: as, b :: bs => a != b || clash as bs
  | _, _ => false

/-- Every event of the trace satisfies `P`. -/
def Run.All {α : Type} (P : Event → Prop) (m : Run α) : Prop := ∀ e ∈ m.trace, P e

/-- The texts with which the entries of the list returned by `CheckServiceTasks`
open. -/
def checkOpenings : List GoString :=
  ["  - Task".toList, "    Task Def:".toList, "    Desired status".toList,
   "WARNING: task uses".toList, "WARNING: No tasks in RUNNING state for the service".toList]

/-- A service with the given name, task-definition reference, load balancers and
events. -/
def serviceOn (name ref : GoString) (balancers : List LoadBalancer)
    (events : List ServiceEvent) : Service :=
  { ServiceName := name, Status := "ACTIVE".toList, TaskDefinition := ref, RunningCount := 0,
    DesiredCount := 0, PendingCount := 0, LoadBalancers := balancers, Deployments := [],
    Events := events }

/-- Remote services that answer every request: with the given services, tasks, task
definition and load-balancer descriptions; a registration is answered with revision 1
of the submitted family, an update with the first service. -/
def awsFor (services : List Service) (tasks : List Task) (definition : TaskDefinition)
    (descriptions : List LoadBalancerDescription) : Aws where
  ListServices := fun _ => .ok (services.map fun s => s.ServiceName)
  DescribeServices := fun _ _ => .ok services
  ListTasks := fun _ _ => .ok (tasks.map fun t => t.TaskArn)
  DescribeTasks := fun _ _ => .ok tasks
  DescribeTaskDefinition := fun _ => .ok definition
  RegisterTaskDefinition := fun family containers volumes =>
    .ok { Family := family, Revision := 1, Status := "ACTIVE".toList,
          TaskDefinitionArn := "td/".toList ++ family ++ ":1".toList,
          ContainerDefinitions := containers, Volumes := volumes }
  UpdateService := fun _ _ _ =>
    match services with
    | s :: _ => .ok s
    | [] => .error "ServiceNotFoundException".toList
  ListTaskDefinitions := fun _ => .ok []
  DescribeLoadBalancers := fun _ => .ok descriptions

/-- A task definition of the given family with the given container definitions. -/
def definitionOf (family : GoString) (containers : List ContainerDefinition) : TaskDefinition :=
  { Family := family, Revision := 1, Status := "ACTIVE".toList,
    TaskDefinitionArn := "td/".toList ++ family ++ ":1".toList,
    ContainerDefinitions := containers, Volumes := [] }

/-- A container definition with the given image. -/
def containerOf (image : GoString) : ContainerDefinition :=
  { Command := [], Cpu := 10, EntryPoint := [], Environment := [], Essential := true,
    Image := image, Memory := 128, Name := "main".toList, PortMappings := [] }

/-- A load-balancer description with the given registered instances. -/
def balancerWith (name : GoString) (instances : List GoString) : LoadBalancerDescription :=
  { LoadBalancerName := name, DNSName := "elb.example".toList,
    Instances := instances.map fun i => { InstanceId := i } }

/-- A host on which every file reads as `bytes` and decodes to `parsed`. -/
def hostWith (bytes : GoString) (parsed : TaskDefn) : Host :=
  { plainHost with
    ReadFile := fun _ => .ok bytes
    Unmarshal := fun _ => .ok parsed }

/-- A container entry of a descriptor file with the given name and image. -/
def descriptorContainer (name image : GoString) : TaskDefnContainer :=
  { Command := [], CPU := 10, EntryPoint := [], Environment := [], Essential := true,
    Image := image, Memory := 128, Name := name, PortMappings := [] }

/-- Three service events, most recent first, none of them about a task. -/
def threeEvents : List ServiceEvent :=
  [{ CreatedAt := "t3".toList, Message := "third".toList },
   { CreatedAt := "t2".toList, Message := "second".toList },
   { CreatedAt := "t1".toList, Message := "first".toList }]

/-- The event is not a printed line that opens with `lit`. -/
def avoids (lit : GoString) (e : Event) : Prop := ∀ rest : GoString, e ≠ .out (lit ++ rest)

/-- If the run ends normally, its value satisfies `Q`. -/
def Run.Post {α : Type} (Q : α → Prop) (m : Run α) : Prop := ∀ a, m.outcome = .ok a → Q a

/-- The loop of `PrintServices` over the services that were returned. -/
def servicesLoop (aws : Aws) (host : Host) (clusterName serviceName : GoString)
    (verboseFlag : Bool) (eventsFlag : Int) (services : List Service) : Run PrintServicesVars :=
  if services.length = 0 then
    (Println ["  No services to describe.".toList] >>= fun _ =>
      pure { foundService := false, loadBalancers := [], eventsFlag := eventsFlag })
  else
    forFold services
      { foundService := false, loadBalancers := [], eventsFlag := eventsFlag }
      (printService aws host clusterName serviceName verboseFlag)

/-- The closing step of `PrintServices`. -/
def servicesClose (serviceName : GoString) (vars : PrintServicesVars) : Run (List GoString) :=
  whenever (serviceName ≠ [] ∧ vars.foundService = false) (emit (notFoundLine serviceName))
    >>= fun _ => pure vars.loadBalancers

/-- The family of a task-definition identifier: the first `:`-segment of its revision
key. -/
def familyOf (id : GoString) : GoString :=
  ((strSplit ':' (getRevisionFromTaskDefinition id)).head?).getD []

/-- The revision of a task-definition identifier: the second `:`-segment of its
revision key. -/
def revisionOf (id : GoString) : GoString :=
  ((strSplit ':' (getRevisionFromTaskDefinition id)).get? 1).getD []

/-- The last identifier of the listing that belongs to the family, if any. -/
def lastOfFamily (listing : List GoString) (family : GoString) : Option GoString :=
  (listing.filter fun id => decide (familyOf id = family)).getLast?

/-- The map that the loop of `PrintTasks` builds from a listing, starting from `m`. -/
def familiesOf (listing : List GoString) (m : List (GoString × GoString)) :
    List (GoString × GoString) :=
  listing.foldl (fun m id => mapSet m (familyOf id) (revisionOf id)) m

/-- Remote services that answer the listing of task definitions with `listing`. -/
def awsListing (listing : List GoString) : Aws :=
  { silentAws with ListTaskDefinitions := fun _ => .ok listing }

/-! ## src/main.go -/

/-- The value of the variable `credProfile` in `main` after the credential flag and
the environment variable `ECSCREDENTIAL` have been looked at (src/main.go,
lines 62-71). -/
def credProfile (credFlag ecsCredential : GoString) : GoString :=
  let credProfile := "default".toList
  if credFlag = [] then
    if ecsCredential ≠ [] then ecsCredential else credProfile
  else
    if credFlag ≠ "env".toList then credFlag else credProfile

/-! ## Vocabulary of the statements, continued -/

/-- The three descriptive entries that verbose mode adds for one task. -/
def verboseEntries (task : Task) : List GoString :=
  [Sprintln ["  - Task".toList, task.TaskArn],
   Sprintln ["    Task Def:".toList, task.TaskDefinitionArn],
   Sprintln ["    Desired status".toList, task.DesiredStatus, "- Last status".toList,
     task.LastStatus]]

/-- Remote services that return the given services and answer every other request,
except that fetching a task definition fails. -/
def awsDefinitionFails (services : List Service) : Aws :=
  { awsFor services [] (definitionOf "fam".toList []) [] with
    DescribeTaskDefinition := fun _ => .error "AccessDeniedException".toList }

/-- The definitions that the selector of `PrintTasks` asks for, in the words of the
specification: the last one listed for `latest`, every one listed for the empty
selector, and otherwise those whose revision key is the family, a colon and the
selector. -/
def selectedDefinitions (taskFamily taskRevision : GoString) (listing : List GoString) :
    List GoString :=
  if taskRevision = "latest".toList then listing.getLast?.toList
  else if taskRevision = [] then listing
  else listing.filter fun id =>
    decide (getRevisionFromTaskDefinition id = taskFamily ++ ":".toList ++ taskRevision)

/-- The requests of a trace, in order. -/
def requestsOf : List Event → List Request
  | [] => []
  | .call r :: rest => r :: requestsOf rest
  | .out _ :: rest => requestsOf rest

/-- Remote services that answer the listing of task definitions with `listing` and
describe every task definition as `definition`. -/
def awsDefinitions (listing : List GoString) (definition : TaskDefinition) : Aws :=
  { awsListing listing with DescribeTaskDefinition := fun _ => .ok definition }

/-- What `PrintTaskDefinition` prints, in verbose mode, for one container definition:
the heading, the image, the CPU and memory figures, one line per port mapping, the
command and the entry point when they are not empty, and the environment, one line
per variable under its heading, when it is not empty. -/
def containerDescription (host : Host) (cd : ContainerDefinition) : List Event :=
  [.out (Sprintln ["    - Container Definition:".toList]),
   .out (Sprintln ["      - Image:".toList, cd.Image]),
   .out (Sprintln ["      - CPU:".toList, fmtInt cd.Cpu]),
   .out (Sprintln ["      - Memory:".toList, fmtInt cd.Memory])]
  ++ cd.PortMappings.map (fun pm => .out (Sprintln ["      - Container Port".toList,
        fmtInt pm.ContainerPort, ": Host Port".toList, fmtInt pm.HostPort]))
  ++ (if cd.Command.length > 0
      then [.out ("      - Command: ".toList ++ host.fmtPointers cd.Command ++ ['\n'])]
      else [])
  ++ (if cd.EntryPoint.length > 0
      then [.out ("      - Entry Point: ".toList ++ host.fmtPointers cd.EntryPoint ++ ['\n'])]
      else [])
  ++ (if cd.Environment.length > 0
      then .out (Sprintln ["      - Environment:".toList]) ::
        cd.Environment.map (fun kv => .out (Sprintln ["       ".toList, kv.Name,
          "=".toList, kv.Value]))
      else [])

/-- A container definition with the given image, one port mapping, a command and one
environment variable. -/
def fullContainer (image : GoString) : ContainerDefinition :=
  { Command := ["serve".toList], Cpu := 10, EntryPoint := [],
    Environment := [{ Name := "MODE".toList, Value := "prod".toList }], Essential := true,
    Image := image, Memory := 128, Name := "main".toList,
    PortMappings := [{ ContainerPort := 80, HostPort := 8080 }] }

/-! ## Lemmas about `strSplit` -/

theorem strSplit_ne_nil (sep : Char) (s : GoString) : strSplit sep s ≠ [] := by
  induction s with
  | nil => simp [strSplit]
  | cons c cs ih =>
    unfold strSplit
    split
    · simp
    · split <;> simp

theorem strSplit_of_not_mem (sep : Char) (s : GoString) (h : sep ∉ s) :
    strSplit sep s = [s] := by
  induction s with
  | nil => simp [strSplit]
  | cons c cs ih =>
    have hc : ¬ c = sep := fun e => h (by simp [e])
    have hcs : sep ∉ cs := fun m => h (List.mem_cons_of_mem _ m)
    simp [strSplit, hc, ih hcs]

theorem strSplit_length_gt_one_iff (sep : Char) (s : GoString) :
    1 < (strSplit sep s).length ↔ sep ∈ s := by
  induction s with
  | nil => simp [strSplit]
  | cons c cs ih =>
    by_cases hc : c = sep
    · subst hc
      have := strSplit_ne_nil c cs
      have hpos : 0 < (strSplit c cs).length := List.length_pos.mpr this
      simp [strSplit, hpos]
    · have hne : ¬ sep = c := fun e => hc e.symm
      cases hsp : strSplit sep cs with
      | nil => exact absurd hsp (strSplit_ne_nil sep cs)
      | cons seg segs =>
        rw [hsp] at ih
        simp [strSplit, hc, hsp, hne] at ih ⊢
        exact ih

theorem strSplit_getLast_append (sep : Char) (pre suf : GoString) :
    (strSplit sep (pre ++ sep :: suf)).getLast? = (strSplit sep suf).getLast? := by
  induction pre with
  | nil =>
    cases hsp : strSplit sep suf with
    | nil => exact absurd hsp (strSplit_ne_nil sep suf)
    | cons seg segs => simp [strSplit, hsp, List.getLast?_cons_cons]
  | cons c cs ih =>
    by_cases hc : c = sep
    · subst hc
      cases hsp : strSplit c (cs ++ c :: suf) with
      | nil => exact absurd hsp (strSplit_ne_nil _ _)
      | cons seg segs =>
        rw [hsp] at ih
        simp [strSplit, hsp, List.getLast?_cons_cons, ih]
    · cases hsp : strSplit sep (cs ++ sep :: suf) with
      | nil => exact absurd hsp (strSplit_ne_nil _ _)
      | cons seg segs =>
        have hlen : 1 < (strSplit sep (cs ++ sep :: suf)).length :=
          (strSplit_length_gt_one_iff sep _).mpr (by simp)
        rw [hsp] at ih hlen
        cases segs with
        | nil => simp at hlen
        | cons seg2 segs2 =>
          show (strSplit sep (c :: (cs ++ sep :: suf))).getLast? = _
          rw [strSplit, if_neg hc, hsp]
          rw [List.getLast?_cons_cons] at ih ⊢
          exact ih

theorem index?_length_sub_one {α : Type} (xs : List α) :
    index? xs (xs.length - 1) = xs.getLast? := by
  unfold index?
  rw [List.getLast?_eq_getElem?]
  simp

/-- Revision key of a reference that contains a separator. -/
theorem getRevision_of_split (pre suf : GoString) (h : '/' ∉ suf) :
    getRevisionFromTaskDefinition (pre ++ '/' :: suf) = suf := by
  have hlen : 1 < (strSplit '/' (pre ++ '/' :: suf)).length :=
    (strSplit_length_gt_one_iff _ _).mpr (by simp)
  unfold getRevisionFromTaskDefinition
  simp only [gt_iff_lt, hlen, if_true]
  rw [index?_length_sub_one, strSplit_getLast_append, strSplit_of_not_mem _ _ h]
  simp

/-- Revision key of a reference without separator. -/
theorem getRevision_of_not_mem (s : GoString) (h : '/' ∉ s) :
    getRevisionFromTaskDefinition s = "unknown".toList := by
  unfold getRevisionFromTaskDefinition
  rw [strSplit_of_not_mem _ _ h]
  simp

/-! ## Lemmas about runs -/

@[simp]
theorem Run.pure_eq {α : Type} (a : α) : (pure a : Run α) = ⟨[], .ok a⟩ := rfl

@[simp]
theorem Run.bind_eq {α β : Type} (m : Run α) (f : α → Run β) :
    (m >>= f) = m.andThen f := rfl

@[simp]
theorem Run.andThen_ok {α β : Type} (t : List Event) (a : α) (f : α → Run β) :
    Run.andThen ⟨t, .ok a⟩ f = ⟨t ++ (f a).trace, (f a).outcome⟩ := rfl

@[simp]
theorem Run.andThen_exit {α β : Type} (t : List Event) (c : Nat) (f : α → Run β) :
    Run.andThen ⟨t, .exit c⟩ f = ⟨t, .exit c⟩ := rfl

@[simp]
theorem Run.andThen_panic {α β : Type} (t : List Event) (f : α → Run β) :
    Run.andThen (⟨t, .panic⟩ : Run α) f = ⟨t, .panic⟩ := rfl

theorem Run.andThen_of_ok {α β : Type} (m : Run α) (f : α → Run β) (a : α)
    (h : m.outcome = .ok a) :
    m.andThen f = ⟨m.trace ++ (f a).trace, (f a).outcome⟩ := by
  cases m with
  | mk t o => cases h; rfl

theorem Run.andThen_of_exit {α β : Type} (m : Run α) (f : α → Run β) (c : Nat)
    (h : m.outcome = .exit c) : m.andThen f = ⟨m.trace, .exit c⟩ := by
  cases m with
  | mk t o => cases h; rfl

theorem Run.andThen_of_panic {α β : Type} (m : Run α) (f : α → Run β)
    (h : m.outcome = .panic) : m.andThen f = ⟨m.trace, .panic⟩ := by
  cases m with
  | mk t o => cases h; rfl

/-! ## Lemmas about the loop of `CheckServiceTasks` -/

theorem clash_append (a b x y : GoString) (h : clash a b = true) : a ++ x ≠ b ++ y := by
  induction a generalizing b with
  | nil => simp [clash] at h
  | cons c cs ih =>
    cases b with
    | nil => simp [clash] at h
    | cons d ds =>
      simp only [clash, Bool.or_eq_true, bne_iff_ne, ne_eq] at h
      intro e
      simp only [List.cons_append, List.cons.injEq] at e
      rcases h with h | h
      · exact h e.1
      · exact ih ds h e.2

theorem mismatchWarnings_cons (rev : GoString) (t : Task) (ts : List Task) :
    mismatchWarnings rev (t :: ts) = mismatchWarnings rev [t] ++ mismatchWarnings rev ts := by
  unfold mismatchWarnings
  rw [← List.map_append, ← List.filter_append]
  rfl

theorem mismatchWarnings_eq_flatMap (rev : GoString) (tasks : List Task) :
    mismatchWarnings rev tasks = tasks.flatMap (taskLines false rev) := by
  induction tasks with
  | nil => rfl
  | cons t ts ih =>
    rw [mismatchWarnings_cons, List.flatMap_cons, ih]
    rfl

theorem runningCount_cons (t : Task) (ts : List Task) :
    runningCount (t :: ts)
      = (if t.LastStatus = "RUNNING".toList then 1 else 0) + runningCount ts := by
  unfold runningCount
  rw [List.countP_cons, Nat.add_comm]
  simp only [decide_eq_true_eq]

theorem checkTask_eq (v : Bool) (rev : GoString) (w : List GoString) (n : Nat) (t : Task) :
    checkTask v rev (w, n) t
      = (w ++ taskLines v rev t,
         n + (if t.LastStatus = "RUNNING".toList then 1 else 0)) := by
  unfold checkTask taskLines mismatchWarnings
  by_cases hm : rev = getRevisionFromTaskDefinition t.TaskDefinitionArn
  · have hm2 : getRevisionFromTaskDefinition t.TaskDefinitionArn = rev := hm.symm
    cases v <;> by_cases hr : t.LastStatus = "RUNNING".toList <;>
      simp only [hm, hr, if_true, if_false, ne_eq, not_true_eq_false, decide_False,
        List.filter_cons, List.filter_nil, List.map_nil, List.append_nil, Bool.false_eq_true,
        List.nil_append, Nat.add_zero, List.append_assoc, List.cons_append]
  · have hm2 : ¬ getRevisionFromTaskDefinition t.TaskDefinitionArn = rev := fun e => hm e.symm
    cases v <;> by_cases hr : t.LastStatus = "RUNNING".toList <;>
      simp only [hm, hm2, hr, if_true, if_false, ne_eq, not_false_eq_true, decide_True,
        List.filter_cons, List.filter_nil, List.map_nil, List.map_cons, List.append_nil,
        Bool.false_eq_true, List.nil_append, Nat.add_zero, List.append_assoc, List.cons_append]

theorem foldl_checkTask (v : Bool) (rev : GoString) (tasks : List Task) (w : List GoString)
    (n : Nat) :
    tasks.foldl (checkTask v rev) (w, n)
      = (w ++ tasks.flatMap (taskLines v rev), n + runningCount tasks) := by
  induction tasks generalizing w n with
  | nil => simp only [List.foldl_nil, List.flatMap_nil, List.append_nil]; rfl
  | cons t ts ih =>
    rw [List.foldl_cons, checkTask_eq, ih, List.flatMap_cons, runningCount_cons,
      List.append_assoc, Nat.add_assoc]

/-- The outcome of `CheckServiceTasks`, whatever the flag, in terms of the tasks that
`getServiceTasks` hands over. -/
theorem CheckServiceTasks_outcome (aws : Aws) (clusterName serviceName : GoString) (v : Bool)
    (ref : GoString) (tasks : List Task)
    (h : (getServiceTasks aws clusterName serviceName).outcome = .ok tasks) :
    (CheckServiceTasks aws clusterName serviceName v ref).outcome
      = .ok (tasks.flatMap (taskLines v (getRevisionFromTaskDefinition ref)) ++
              (if runningCount tasks = 0 then [noRunningWarning] else []),
             runningCount tasks) := by
  unfold CheckServiceTasks
  simp only [Run.bind_eq, Run.pure_eq]
  rw [Run.andThen_of_ok _ _ tasks h, foldl_checkTask]
  simp only [List.nil_append, Nat.zero_add]
  by_cases h0 : runningCount tasks = 0
  · simp only [h0, if_true]
  · simp only [h0, if_false, List.append_nil]

/-- Every list of tasks is one that `getServiceTasks` can hand over. -/
theorem getServiceTasks_awsWithTasks (tasks : List Task) (clusterName serviceName : GoString) :
    (getServiceTasks (awsWithTasks tasks) clusterName serviceName).outcome = .ok tasks := by
  cases tasks with
  | nil => rfl
  | cons t ts =>
    have hpos : ((t :: ts).map fun x => x.TaskArn).length > 0 := by simp
    unfold getServiceTasks
    simp only [Run.bind_eq, call, awsWithTasks, Run.andThen_ok, Reply.err, CheckError, output,
      Run.pure_eq, hpos, if_true]

theorem Sprintln_singleton (a : GoString) : Sprintln [a] = a ++ ['\n'] := rfl

theorem Sprintln_cons_cons (a b : GoString) (rest : List GoString) :
    Sprintln (a :: b :: rest) = a ++ (' ' :: (joinSpace (b :: rest) ++ ['\n'])) := by
  simp only [Sprintln, joinSpace, List.append_assoc, List.cons_append]

/-- A line that opens with a text clashing with the opening of another line differs
from that line. -/
theorem Sprintln_ne_of_clash (a b : GoString) (as bs : List GoString)
    (h : clash a b = true) : Sprintln (a :: as) ≠ Sprintln (b :: bs) := by
  cases as with
  | nil =>
    cases bs with
    | nil => rw [Sprintln_singleton, Sprintln_singleton]; exact clash_append _ _ _ _ h
    | cons b2 bs2 =>
      rw [Sprintln_singleton, Sprintln_cons_cons]; exact clash_append _ _ _ _ h
  | cons a2 as2 =>
    cases bs with
    | nil => rw [Sprintln_singleton, Sprintln_cons_cons]; exact clash_append _ _ _ _ h
    | cons b2 bs2 =>
      rw [Sprintln_cons_cons, Sprintln_cons_cons]; exact clash_append _ _ _ _ h

theorem noRunningWarning_not_mem_taskLines (v : Bool) (rev : GoString) (t : Task) :
    noRunningWarning ∉ taskLines v rev t := by
  have h1 : ∀ x : List GoString, Sprintln ("  - Task".toList :: x) ≠ noRunningWarning :=
    fun x => Sprintln_ne_of_clash _ _ _ _ (by decide)
  have h2 : ∀ x : List GoString, Sprintln ("    Task Def:".toList :: x) ≠ noRunningWarning :=
    fun x => Sprintln_ne_of_clash _ _ _ _ (by decide)
  have h3 : ∀ x : List GoString,
      Sprintln ("    Desired status".toList :: x) ≠ noRunningWarning :=
    fun x => Sprintln_ne_of_clash _ _ _ _ (by decide)
  have h4 : ∀ a b : GoString, revisionWarning a b ≠ noRunningWarning :=
    fun a b => Sprintln_ne_of_clash _ _ _ _ (by decide)
  intro hmem
  unfold taskLines mismatchWarnings at hmem
  rcases List.mem_append.mp hmem with hv | hw
  · cases v with
    | false => simp only [Bool.false_eq_true, if_false, List.not_mem_nil] at hv
    | true =>
      simp only [if_true, List.mem_cons, List.mem_singleton, List.not_mem_nil,
        or_false] at hv
      rcases hv with e | e | e
      · exact h1 _ e.symm
      · exact h2 _ e.symm
      · exact h3 _ e.symm
  · rcases List.mem_map.mp hw with ⟨t1, _, e⟩
    exact h4 _ _ e

theorem noRunningWarning_not_mem_flatMap (v : Bool) (rev : GoString) (tasks : List Task) :
    noRunningWarning ∉ tasks.flatMap (taskLines v rev) := by
  intro h
  rcases List.mem_flatMap.mp h with ⟨t, _, ht⟩
  exact noRunningWarning_not_mem_taskLines v rev t ht

/-! ## Lemmas about traces -/

theorem Run.All_pure {α : Type} (P : Event → Prop) (a : α) : Run.All P (pure a : Run α) := by
  intro e he
  simp only [Run.pure_eq, List.not_mem_nil] at he

theorem Run.All_bind {α β : Type} (P : Event → Prop) (m : Run α) (f : α → Run β)
    (hm : Run.All P m) (hf : ∀ a, Run.All P (f a)) : Run.All P (m >>= f) := by
  cases m with
  | mk t o =>
    cases o with
    | ok a =>
      intro e he
      simp only [Run.bind_eq, Run.andThen_ok, List.mem_append] at he
      rcases he with he | he
      · exact hm e he
      · exact hf a e he
    | exit c => exact hm
    | panic => exact hm

theorem Run.All_emit (P : Event → Prop) (s : GoString) (h : P (.out s)) :
    Run.All P (emit s) := by
  intro e he
  simp only [emit, List.mem_singleton] at he
  rw [he]; exact h

theorem Run.All_call {α : Type} (P : Event → Prop) (r : Request) (reply : Reply α)
    (h : P (.call r)) : Run.All P (call r reply) := by
  intro e he
  simp only [call, List.mem_singleton] at he
  rw [he]; exact h

theorem Run.All_osExit {α : Type} (P : Event → Prop) (c : Nat) :
    Run.All P (osExit c : Run α) := by
  intro e he
  simp only [osExit, List.not_mem_nil] at he

theorem Run.All_goPanic {α : Type} (P : Event → Prop) : Run.All P (goPanic : Run α) := by
  intro e he
  simp only [goPanic, List.not_mem_nil] at he

theorem Run.All_output {α : Type} (P : Event → Prop) (r : Reply α) : Run.All P (output r) := by
  cases r with
  | ok a => exact Run.All_pure P a
  | error e => exact Run.All_goPanic P

theorem Run.All_indexM {α : Type} (P : Event → Prop) (xs : List α) (i : Nat) :
    Run.All P (indexM xs i) := by
  unfold indexM
  split
  · exact Run.All_pure P _
  · exact Run.All_goPanic P

theorem Run.All_CheckError (P : Event → Prop) (action : GoString) (err : Option GoString)
    (h : ∀ ops, P (.out (Sprintln ("Error".toList :: ops)))) :
    Run.All P (CheckError action err) := by
  cases err with
  | none => exact Run.All_pure P _
  | some e =>
    exact Run.All_bind P _ _ (Run.All_emit P _ (h _)) (fun _ => Run.All_osExit P 1)

theorem Run.All_forEach {α : Type} (P : Event → Prop) (xs : List α) (body : α → Run Unit)
    (h : ∀ x, Run.All P (body x)) : Run.All P (forEach xs body) := by
  induction xs with
  | nil => exact Run.All_pure P _
  | cons x xs ih => exact Run.All_bind P _ _ (h x) (fun _ => ih)

theorem Run.All_forFold {α σ : Type} (P : Event → Prop) (xs : List α) (s : σ)
    (body : σ → α → Run σ) (h : ∀ s x, Run.All P (body s x)) :
    Run.All P (forFold xs s body) := by
  induction xs generalizing s with
  | nil => exact Run.All_pure P _
  | cons x xs ih => exact Run.All_bind P _ _ (h s x) (fun s1 => ih s1)

theorem getServiceTasks_All (P : Event → Prop) (aws : Aws) (clusterName serviceName : GoString)
    (hcall : ∀ r, P (.call r)) (herr : ∀ ops, P (.out (Sprintln ("Error".toList :: ops)))) :
    Run.All P (getServiceTasks aws clusterName serviceName) := by
  unfold getServiceTasks
  refine Run.All_bind P _ _ (Run.All_call P _ _ (hcall _)) (fun reply => ?_)
  refine Run.All_bind P _ _ (Run.All_CheckError P _ _ herr) (fun _ => ?_)
  refine Run.All_bind P _ _ (Run.All_output P _) (fun arns => ?_)
  split
  · refine Run.All_bind P _ _ (Run.All_call P _ _ (hcall _)) (fun reply2 => ?_)
    refine Run.All_bind P _ _ (Run.All_CheckError P _ _ herr) (fun _ => ?_)
    refine Run.All_bind P _ _ (Run.All_output P _) (fun tasks => ?_)
    exact Run.All_pure P _
  · exact Run.All_pure P _

theorem CheckServiceTasks_inv (aws : Aws) (clusterName serviceName : GoString) (v : Bool)
    (ref : GoString) (tw : List GoString) (n : Nat)
    (h : (CheckServiceTasks aws clusterName serviceName v ref).outcome = .ok (tw, n)) :
    ∃ tasks, (getServiceTasks aws clusterName serviceName).outcome = .ok tasks ∧
      (CheckServiceTasks aws clusterName serviceName v ref).trace
        = (getServiceTasks aws clusterName serviceName).trace := by
  unfold CheckServiceTasks at h ⊢
  simp only [Run.bind_eq, Run.pure_eq] at h ⊢
  cases hg : (getServiceTasks aws clusterName serviceName).outcome with
  | ok tasks =>
    refine ⟨tasks, rfl, ?_⟩
    rw [Run.andThen_of_ok _ _ tasks hg]
    simp only [List.append_nil]
  | exit c =>
    rw [Run.andThen_of_exit _ _ c hg] at h
    cases h
  | panic =>
    rw [Run.andThen_of_panic _ _ hg] at h
    cases h

theorem taskLines_opens (v : Bool) (rev : GoString) (t : Task) :
    ∀ m ∈ taskLines v rev t, ∃ lit ∈ checkOpenings, ∃ y, m = lit ++ y := by
  intro m hm
  unfold taskLines mismatchWarnings at hm
  rcases List.mem_append.mp hm with hv | hw
  · cases v with
    | false => simp only [Bool.false_eq_true, if_false, List.not_mem_nil] at hv
    | true =>
      simp only [if_true, List.mem_cons, List.mem_singleton, List.not_mem_nil,
        or_false] at hv
      rcases hv with e | e | e
      · exact ⟨"  - Task".toList, by decide, _, e.trans (Sprintln_cons_cons _ _ _)⟩
      · exact ⟨"    Task Def:".toList, by decide, _, e.trans (Sprintln_cons_cons _ _ _)⟩
      · exact ⟨"    Desired status".toList, by decide, _, e.trans (Sprintln_cons_cons _ _ _)⟩
  · rcases List.mem_map.mp hw with ⟨t1, _, e⟩
    exact ⟨"WARNING: task uses".toList, by decide, _, e.symm.trans (Sprintln_cons_cons _ _ _)⟩

theorem CheckServiceTasks_entries_open (aws : Aws) (clusterName serviceName : GoString)
    (v : Bool) (ref : GoString) (tw : List GoString) (n : Nat)
    (h : (CheckServiceTasks aws clusterName serviceName v ref).outcome = .ok (tw, n)) :
    ∀ m ∈ tw, ∃ lit ∈ checkOpenings, ∃ y, m = lit ++ y := by
  obtain ⟨tasks, hg, _⟩ := CheckServiceTasks_inv _ _ _ _ _ _ _ h
  rw [CheckServiceTasks_outcome _ _ _ _ _ tasks hg] at h
  injection h with h
  injection h with h1 h2
  intro m hm
  rw [← h1] at hm
  rcases List.mem_append.mp hm with hm | hm
  · rcases List.mem_flatMap.mp hm with ⟨t, _, ht⟩
    exact taskLines_opens v _ t m ht
  · by_cases h0 : runningCount tasks = 0
    · simp only [h0, if_true, List.mem_singleton] at hm
      exact ⟨"WARNING: No tasks in RUNNING state for the service".toList, by decide, ['\n'],
        hm.trans (Sprintln_singleton _)⟩
    · simp only [h0, if_false, List.not_mem_nil] at hm

theorem forEach_Println (xs : List GoString) :
    forEach xs (fun msg => Println [msg]) = ⟨xs.map (fun msg => .out (Sprintln [msg])), .ok ()⟩ := by
  induction xs with
  | nil => rfl
  | cons x xs ih =>
    rw [forEach]
    simp only [Run.bind_eq]
    rw [ih]
    rfl

theorem foldl_add_length (descriptions : List LoadBalancerDescription) (n : Nat) :
    descriptions.foldl (fun count balancer => count + balancer.Instances.length) n
      = n + (descriptions.map fun balancer => balancer.Instances.length).sum := by
  induction descriptions generalizing n with
  | nil => simp
  | cons d ds ih => simp only [List.foldl_cons, ih, List.map_cons, List.sum_cons, Nat.add_assoc]

theorem strSplit_cases (sep : Char) (s : GoString) :
    ∃ seg segs, strSplit sep s = seg :: segs := by
  cases h : strSplit sep s with
  | nil => exact absurd h (strSplit_ne_nil sep s)
  | cons seg segs => exact ⟨seg, segs, rfl⟩

/-! ## Lemmas about `strIndex` and slices -/

theorem isPrefixOf_iff_append (sub s : GoString) :
    sub.isPrefixOf s = true ↔ ∃ q, s = sub ++ q := by
  rw [List.isPrefixOf_iff_prefix]
  constructor
  · rintro ⟨q, rfl⟩; exact ⟨q, rfl⟩
  · rintro ⟨q, rfl⟩; exact ⟨q, rfl⟩

/-- The value of `strIndex` never exceeds the offset of an occurrence. -/
theorem strIndex_le (sub : GoString) (s p q : GoString) (h : s = p ++ sub ++ q) :
    0 ≤ strIndex s sub ∧ strIndex s sub ≤ (p.length : Int) := by
  induction s generalizing p with
  | nil =>
    have hp : p = [] := by
      cases p with
      | nil => rfl
      | cons a as => simp at h
    have hsub : sub = [] := by
      cases sub with
      | nil => rfl
      | cons a as => subst hp; simp at h
    subst hp; subst hsub
    simp [strIndex]
  | cons c cs ih =>
    unfold strIndex
    by_cases hpre : sub.isPrefixOf (c :: cs) = true
    · simp only [hpre, if_true]
      exact ⟨le_refl _, by exact_mod_cast Nat.zero_le _⟩
    · simp only [hpre, Bool.false_eq_true, if_false]
      cases p with
      | nil =>
        exact absurd ((isPrefixOf_iff_append sub (c :: cs)).mpr ⟨q, by simpa using h⟩) hpre
      | cons a as =>
        have hcs : cs = as ++ sub ++ q := by
          simp only [List.cons_append, List.cons.injEq] at h
          exact h.2
        obtain ⟨h0, hle⟩ := ih as hcs
        have hne : strIndex cs sub ≠ -1 := by omega
        simp only [hne, if_false, List.length_cons, Nat.cast_add, Nat.cast_one]
        omega

/-- When `strIndex` is not `-1` it is the offset of an occurrence. -/
theorem strIndex_occurs (sub : GoString) (s : GoString) (h : strIndex s sub ≠ -1) :
    ∃ p q, s = p ++ sub ++ q ∧ strIndex s sub = (p.length : Int) := by
  induction s with
  | nil =>
    unfold strIndex at h ⊢
    by_cases hsub : sub = []
    · subst hsub
      exact ⟨[], [], rfl, by simp⟩
    · simp only [hsub, if_false, ne_eq, not_true_eq_false] at h
  | cons c cs ih =>
    unfold strIndex at h ⊢
    by_cases hpre : sub.isPrefixOf (c :: cs) = true
    · obtain ⟨q, hq⟩ := (isPrefixOf_iff_append sub (c :: cs)).mp hpre
      exact ⟨[], q, by simpa using hq, by simp [hpre]⟩
    · simp only [hpre, Bool.false_eq_true, if_false] at h ⊢
      by_cases hr : strIndex cs sub = -1
      · simp only [hr, if_true, ne_eq, not_true_eq_false] at h
      · obtain ⟨p, q, hs, hi⟩ := ih hr
        refine ⟨c :: p, q, by simp [hs], ?_⟩
        rw [if_neg hr, hi]
        simp only [List.length_cons, Nat.cast_add, Nat.cast_one]

/-- The offset that `strIndex` returns for the first occurrence. -/
theorem strIndex_first (sub s before rest : GoString)
    (hs : s = before ++ sub ++ rest)
    (hfirst : ∀ p q : GoString, s = p ++ sub ++ q → before.length ≤ p.length) :
    strIndex s sub = (before.length : Int) := by
  obtain ⟨h0, hle⟩ := strIndex_le sub s before rest hs
  obtain ⟨p, q, hpq, hi⟩ := strIndex_occurs sub s (by omega)
  have := hfirst p q hpq
  omega

theorem slice?_middle (a b c : GoString) :
    slice? (a ++ b ++ c) (a.length : Int) (((a ++ b ++ c).length : Int) - c.length)
      = some b := by
  unfold slice?
  have h1 : (0 : Int) ≤ a.length := by exact_mod_cast Nat.zero_le _
  have h2 : (a.length : Int) ≤ ((a ++ b ++ c).length : Int) - c.length := by
    simp only [List.length_append, Nat.cast_add]; omega
  have h3 : ((a ++ b ++ c).length : Int) - c.length ≤ ((a ++ b ++ c).length : Int) := by
    omega
  simp only [h1, h2, h3, and_self, if_true, Option.some.injEq]
  have e1 : ((a.length : Int)).toNat = a.length := by simp
  have e2 : (((a ++ b ++ c).length : Int) - c.length).toNat = a.length + b.length := by
    simp only [List.length_append, Nat.cast_add]; omega
  rw [e1, e2, List.append_assoc, List.drop_left]
  simp

/-! ## Lemmas about what `PrintServices` prints -/

theorem digitChar_ne_space (k : Nat) (h : k < 10) : Nat.digitChar k ≠ ' ' := by
  interval_cases k <;> decide

theorem toDigitsCore_ne_space (fuel n : Nat) (ds : List Char) (h : ∀ c ∈ ds, c ≠ ' ') :
    ∀ c ∈ Nat.toDigitsCore 10 fuel n ds, c ≠ ' ' := by
  induction fuel generalizing n ds with
  | zero => simpa [Nat.toDigitsCore] using h
  | succ fuel ih =>
    unfold Nat.toDigitsCore
    have hd : ∀ c ∈ Nat.digitChar (n % 10) :: ds, c ≠ ' ' := by
      intro c hc
      rcases List.mem_cons.mp hc with e | e
      · rw [e]; exact digitChar_ne_space _ (Nat.mod_lt _ (by decide))
      · exact h c e
    simp only
    split
    · exact hd
    · exact ih _ _ hd

theorem toDigitsCore_ne_nil (fuel n : Nat) (ds : List Char) (h : ds ≠ []) :
    Nat.toDigitsCore 10 fuel n ds ≠ [] := by
  induction fuel generalizing n ds with
  | zero => simpa [Nat.toDigitsCore] using h
  | succ fuel ih =>
    unfold Nat.toDigitsCore
    simp only
    split
    · simp
    · exact ih _ _ (by simp)

theorem fmtNat_head (n : Nat) : ∃ c cs, fmtNat n = c :: cs ∧ c ≠ ' ' := by
  have hne : Nat.toDigits 10 n ≠ [] := by
    unfold Nat.toDigits Nat.toDigitsCore
    simp only
    split
    · simp
    · exact toDigitsCore_ne_nil _ _ _ (by simp)
  have hall : ∀ c ∈ Nat.toDigits 10 n, c ≠ ' ' :=
    toDigitsCore_ne_space _ _ [] (by simp)
  have hfmt : fmtNat n = Nat.toDigits 10 n := rfl
  rw [hfmt]
  cases hd : Nat.toDigits 10 n with
  | nil => exact absurd hd hne
  | cons c cs => exact ⟨c, cs, rfl, hall c (by rw [hd]; simp)⟩

theorem avoids_call (lit : GoString) (r : Request) : avoids lit (.call r) := by
  intro rest h; cases h

theorem avoids_append (lit a x : GoString) (h : clash a lit = true) :
    avoids lit (.out (a ++ x)) := by
  intro rest e
  injection e with e
  exact clash_append _ _ _ _ h e

theorem avoids_Sprintln (lit a : GoString) (as : List GoString) (h : clash a lit = true) :
    avoids lit (.out (Sprintln (a :: as))) := by
  cases as with
  | nil => rw [Sprintln_singleton]; exact avoids_append _ _ _ h
  | cons b bs => rw [Sprintln_cons_cons]; exact avoids_append _ _ _ h

theorem All_Println_avoids (lit a : GoString) (as : List GoString) (h : clash a lit = true) :
    Run.All (avoids lit) (Println (a :: as)) :=
  Run.All_emit _ _ (avoids_Sprintln lit a as h)

theorem All_emit_avoids (lit a x : GoString) (h : clash a lit = true) :
    Run.All (avoids lit) (emit (a ++ x)) :=
  Run.All_emit _ _ (avoids_append lit a x h)

theorem Run.All_ite {α : Type} (P : Event → Prop) (c : Prop) [Decidable c] (a b : Run α)
    (ha : Run.All P a) (hb : Run.All P b) : Run.All P (if c then a else b) := by
  split
  · exact ha
  · exact hb

theorem Run.All_whenever (P : Event → Prop) (c : Prop) [Decidable c] (body : Run Unit)
    (h : Run.All P body) : Run.All P (whenever c body) := by
  unfold whenever
  split
  · exact h
  · exact Run.All_pure P _

theorem Run.All_sliceM (P : Event → Prop) (s : GoString) (lo hi : Int) :
    Run.All P (sliceM s lo hi) := by
  unfold sliceM
  split
  · exact Run.All_pure P _
  · exact Run.All_goPanic P

theorem printContainerDefinition_avoids (host : Host) (v : Bool) (cd : ContainerDefinition) :
    Run.All (avoids "  Service ".toList) (printContainerDefinition host v cd) := by
  unfold printContainerDefinition
  simp only [List.append_assoc]
  refine Run.All_bind _ _ _ (All_Println_avoids _ _ _ (by decide)) (fun _ => ?_)
  refine Run.All_bind _ _ _ (All_Println_avoids _ _ _ (by decide)) (fun _ => ?_)
  refine Run.All_bind _ _ _ (Run.All_whenever _ _ _ ?_) (fun _ => ?_)
  · exact Run.All_bind _ _ _ (All_Println_avoids _ _ _ (by decide))
      (fun _ => All_Println_avoids _ _ _ (by decide))
  refine Run.All_bind _ _ _
    (Run.All_forEach _ _ _ (fun _ => All_Println_avoids _ _ _ (by decide))) (fun _ => ?_)
  refine Run.All_bind _ _ _ (Run.All_whenever _ _ _ (All_emit_avoids _ _ _ (by decide)))
    (fun _ => ?_)
  refine Run.All_bind _ _ _ (Run.All_whenever _ _ _ (All_emit_avoids _ _ _ (by decide)))
    (fun _ => ?_)
  refine Run.All_whenever _ _ _ ?_
  exact Run.All_bind _ _ _ (All_Println_avoids _ _ _ (by decide))
    (fun _ => Run.All_forEach _ _ _ (fun _ => All_Println_avoids _ _ _ (by decide)))

theorem PrintTaskDefinition_avoids (aws : Aws) (host : Host) (td : GoString) (v : Bool) :
    Run.All (avoids "  Service ".toList) (PrintTaskDefinition aws host td v) := by
  unfold PrintTaskDefinition
  refine Run.All_bind _ _ _ (Run.All_call _ _ _ (avoids_call _ _)) (fun reply => ?_)
  refine Run.All_bind _ _ _
    (Run.All_CheckError _ _ _ (fun ops => avoids_Sprintln _ _ _ (by decide))) (fun _ => ?_)
  refine Run.All_bind _ _ _ (Run.All_output _ _) (fun taskDef => ?_)
  refine Run.All_bind _ _ _ (All_Println_avoids _ _ _ (by decide)) (fun _ => ?_)
  refine Run.All_bind _ _ _ (All_Println_avoids _ _ _ (by decide)) (fun _ => ?_)
  exact Run.All_forEach _ _ _ (printContainerDefinition_avoids host v)

theorem PrintServiceTasks_avoids (aws : Aws) (c s td : GoString) :
    Run.All (avoids "  Service ".toList) (PrintServiceTasks aws c s td) := by
  unfold PrintServiceTasks
  refine Run.All_bind _ _ _
    (getServiceTasks_All _ _ _ _ (avoids_call _)
      (fun ops => avoids_Sprintln _ _ _ (by decide))) (fun tasks => ?_)
  refine Run.All_forEach _ _ _ (fun task => ?_)
  refine Run.All_bind _ _ _ (All_Println_avoids _ _ _ (by decide)) (fun _ => ?_)
  refine Run.All_bind _ _ _ (All_Println_avoids _ _ _ (by decide)) (fun _ => ?_)
  refine Run.All_bind _ _ _ (All_Println_avoids _ _ _ (by decide)) (fun _ => ?_)
  exact Run.All_whenever _ _ _ (All_Println_avoids _ _ _ (by decide))

theorem printEvent_avoids (aws : Aws) (c : GoString) (events : List ServiceEvent) (i : Nat) :
    Run.All (avoids "  Service ".toList) (printEvent aws c events i) := by
  unfold printEvent
  simp only [List.append_assoc]
  refine Run.All_bind _ _ _ (Run.All_indexM _ _ _) (fun event => ?_)
  refine Run.All_bind _ _ _ (All_emit_avoids _ _ _ (by decide)) (fun _ => ?_)
  refine Run.All_whenever _ _ _ ?_
  refine Run.All_bind _ _ _ (Run.All_sliceM _ _ _ _) (fun taskID => ?_)
  refine Run.All_bind _ _ _ (Run.All_call _ _ _ (avoids_call _ _)) (fun reply => ?_)
  refine Run.All_bind _ _ _
    (Run.All_CheckError _ _ _ (fun ops => avoids_Sprintln _ _ _ (by decide))) (fun _ => ?_)
  refine Run.All_bind _ _ _ (Run.All_output _ _) (fun tasks => ?_)
  refine Run.All_ite _ _ _ _ (All_Println_avoids _ _ _ (by decide)) ?_
  refine Run.All_bind _ _ _ (Run.All_indexM _ _ _) (fun task0 => ?_)
  exact Run.All_bind _ _ _ (All_Println_avoids _ _ _ (by decide))
    (fun _ => All_Println_avoids _ _ _ (by decide))

theorem printEvents_avoids (aws : Aws) (c : GoString) (events : List ServiceEvent) (n : Int) :
    Run.All (avoids "  Service ".toList) (printEvents aws c events n) := by
  unfold printEvents
  simp only [List.append_assoc]
  refine Run.All_ite _ _ _ _ ?_ (Run.All_pure _ _)
  refine Run.All_bind _ _ _ (All_emit_avoids _ _ _ (by decide)) (fun _ => ?_)
  exact Run.All_bind _ _ _ (Run.All_forEach _ _ _ (printEvent_avoids aws c events))
    (fun _ => Run.All_pure _ _)

theorem printService_avoids (aws : Aws) (host : Host) (c name : GoString) (v : Bool)
    (vars : PrintServicesVars) (service : Service) :
    Run.All (avoids "  Service ".toList) (printService aws host c name v vars service) := by
  unfold printService
  refine Run.All_bind _ _ _ ?_ (fun vars1 => ?_)
  rotate_left
  · split <;> exact Run.All_pure _ _
  split
  rotate_left
  · exact Run.All_pure _ _
  unfold printServiceDetails PrintSeparator
  refine Run.All_bind _ _ _ (All_Println_avoids _ _ _ (by decide)) (fun _ => ?_)
  refine Run.All_bind _ _ _ (All_Println_avoids _ _ _ (by decide)) (fun _ => ?_)
  refine Run.All_bind _ _ _ (All_Println_avoids _ _ _ (by decide)) (fun _ => ?_)
  refine Run.All_bind _ _ _ (All_Println_avoids _ _ _ (by decide)) (fun _ => ?_)
  refine Run.All_bind _ _ _ (Run.All_forEach _ _ _ (fun balancer =>
    Run.All_bind _ _ _ (All_Println_avoids _ _ _ (by decide))
      (fun _ => All_Println_avoids _ _ _ (by decide)))) (fun _ => ?_)
  refine Run.All_bind _ _ _ (Run.All_forEach _ _ _ (fun depl =>
    Run.All_bind _ _ _ (All_Println_avoids _ _ _ (by decide))
      (fun _ => All_Println_avoids _ _ _ (by decide)))) (fun _ => ?_)
  refine Run.All_bind _ _ _ (PrintServiceTasks_avoids _ _ _ _) (fun _ => ?_)
  refine Run.All_bind _ _ _ (printEvents_avoids _ _ _ _) (fun eventsFlag => ?_)
  exact Run.All_bind _ _ _ (PrintTaskDefinition_avoids _ _ _ _) (fun _ => Run.All_pure _ _)

theorem Run.Post_pure {α : Type} (Q : α → Prop) (a : α) (h : Q a) : Run.Post Q (pure a) := by
  intro b hb
  simp only [Run.pure_eq, Outcome.ok.injEq] at hb
  rw [← hb]; exact h

theorem Run.Post_bind {α β : Type} (Q : β → Prop) (m : Run α) (f : α → Run β)
    (hf : ∀ a, Run.Post Q (f a)) : Run.Post Q (m >>= f) := by
  cases m with
  | mk t o =>
    cases o with
    | ok a =>
      intro b hb
      exact hf a b hb
    | exit c => intro b hb; cases hb
    | panic => intro b hb; cases hb

theorem printServiceDetails_found (aws : Aws) (host : Host) (c : GoString) (v : Bool)
    (vars : PrintServicesVars) (service : Service) :
    Run.Post (fun v1 => v1.foundService = vars.foundService)
      (printServiceDetails aws host c v vars service) := by
  unfold printServiceDetails
  refine Run.Post_bind _ _ _ (fun _ => ?_)
  refine Run.Post_bind _ _ _ (fun _ => ?_)
  refine Run.Post_bind _ _ _ (fun _ => ?_)
  refine Run.Post_bind _ _ _ (fun _ => ?_)
  refine Run.Post_bind _ _ _ (fun _ => ?_)
  refine Run.Post_bind _ _ _ (fun _ => ?_)
  refine Run.Post_bind _ _ _ (fun _ => ?_)
  refine Run.Post_bind _ _ _ (fun _ => ?_)
  refine Run.Post_bind _ _ _ (fun _ => ?_)
  exact Run.Post_pure _ _ rfl

theorem Run.Post_bind_of {α β : Type} (R : α → Prop) (Q : β → Prop) (m : Run α)
    (f : α → Run β) (hm : Run.Post R m) (hf : ∀ a, R a → Run.Post Q (f a)) :
    Run.Post Q (m >>= f) := by
  cases m with
  | mk t o =>
    cases o with
    | ok a =>
      intro b hb
      exact hf a (hm a rfl) b hb
    | exit c => intro b hb; cases hb
    | panic => intro b hb; cases hb

theorem printService_found (aws : Aws) (host : Host) (c name : GoString) (v : Bool)
    (vars : PrintServicesVars) (service : Service) :
    Run.Post (fun v1 => v1.foundService
        = (vars.foundService || decide (name = service.ServiceName)))
      (printService aws host c name v vars service) := by
  unfold printService
  refine Run.Post_bind_of (fun v1 => v1.foundService = vars.foundService) _ _ _ ?_ ?_
  · split
    · exact printServiceDetails_found aws host c v vars service
    · exact Run.Post_pure _ _ rfl
  · intro v1 hv1
    by_cases hn : name = service.ServiceName
    · simp only [hn, if_true, decide_True, Bool.or_true]
      exact Run.Post_pure _ _ rfl
    · simp only [hn, if_false, decide_False, Bool.or_false]
      exact Run.Post_pure _ _ hv1

theorem forFold_printService_found (aws : Aws) (host : Host) (c name : GoString) (v : Bool)
    (services : List Service) (vars : PrintServicesVars) :
    Run.Post (fun v1 => v1.foundService
        = (vars.foundService || services.any fun s => decide (name = s.ServiceName)))
      (forFold services vars (printService aws host c name v)) := by
  induction services generalizing vars with
  | nil =>
    unfold forFold
    exact Run.Post_pure _ _ (by simp)
  | cons s rest ih =>
    unfold forFold
    refine Run.Post_bind_of _ _ _ _ (printService_found aws host c name v vars s) ?_
    intro v1 hv1 v2 hv2
    have := ih v1 v2 hv2
    rw [this, hv1, List.any_cons, Bool.or_assoc]

theorem printService_skip (aws : Aws) (host : Host) (c name : GoString) (v : Bool)
    (vars : PrintServicesVars) (service : Service) (hname : name ≠ [])
    (hne : service.ServiceName ≠ name) :
    printService aws host c name v vars service = ⟨[], .ok vars⟩ := by
  have h1 : ¬ (name = [] ∨ name = service.ServiceName) := by
    rintro (h | h)
    · exact hname h
    · exact hne h.symm
  have h2 : ¬ (name = service.ServiceName) := fun h => hne h.symm
  unfold printService
  rw [if_neg h1]
  simp only [Run.bind_eq, Run.pure_eq, Run.andThen_ok, List.append_nil]
  rw [if_neg h2]
  rfl

theorem forFold_printService_skip (aws : Aws) (host : Host) (c name : GoString) (v : Bool)
    (services : List Service) (vars : PrintServicesVars) (hname : name ≠ [])
    (hne : ∀ s ∈ services, s.ServiceName ≠ name) :
    forFold services vars (printService aws host c name v) = ⟨[], .ok vars⟩ := by
  induction services with
  | nil => rfl
  | cons s rest ih =>
    unfold forFold
    rw [printService_skip aws host c name v vars s hname (hne s (by simp))]
    simp only [Run.bind_eq, Run.andThen_ok, List.nil_append]
    rw [ih (fun s1 h1 => hne s1 (List.mem_cons_of_mem _ h1))]

theorem notFoundLine_opens (name : GoString) :
    notFoundLine name = "  Service ".toList ++ (joinSpace [name, "not found.".toList] ++ ['\n']) := by
  unfold notFoundLine
  rw [Sprintln_cons_cons]
  rfl

theorem countLine_ne_notFound (n : Nat) (ops : List GoString) (name : GoString) :
    Event.out (Sprintln (fmtNat n :: ops)) ≠ .out (notFoundLine name) := by
  obtain ⟨c, cs, hc, hsp⟩ := fmtNat_head n
  rw [notFoundLine_opens, hc]
  intro h
  injection h with h
  have hr : ∀ x : GoString, "  Service ".toList ++ x = ' ' :: (" Service ".toList ++ x) :=
    fun _ => rfl
  rw [hr] at h
  cases ops with
  | nil =>
    rw [Sprintln_singleton, List.cons_append] at h
    injection h with h1 _
    exact hsp h1
  | cons b bs =>
    rw [Sprintln_cons_cons, List.cons_append] at h
    injection h with h1 _
    exact hsp h1

/-- The run of `PrintServices` once the two listing requests are answered. -/
theorem PrintServices_eq (aws : Aws) (host : Host) (clusterName serviceName : GoString)
    (verboseFlag : Bool) (eventsFlag : Int) (arns : List GoString) (services : List Service)
    (hl : aws.ListServices clusterName = .ok arns)
    (hd : aws.DescribeServices clusterName arns = .ok services) :
    PrintServices aws host clusterName serviceName verboseFlag eventsFlag
      = ⟨[.call (.ListServices clusterName),
          .out (Sprintln [fmtNat arns.length, "Services in cluster".toList, clusterName]),
          .call (.DescribeServices clusterName arns)]
          ++ (servicesLoop aws host clusterName serviceName verboseFlag eventsFlag services
                >>= servicesClose serviceName).trace,
         (servicesLoop aws host clusterName serviceName verboseFlag eventsFlag services
                >>= servicesClose serviceName).outcome⟩ := by
  unfold PrintServices
  simp only [Run.bind_eq, call, hl, hd, Run.andThen_ok, Reply.err, CheckError, output,
    Run.pure_eq, Println, emit, List.nil_append, List.append_nil, List.singleton_append,
    List.cons_append]
  rfl

theorem servicesLoop_skip (aws : Aws) (host : Host) (c name : GoString) (v : Bool)
    (n : Int) (services : List Service) (hname : name ≠ [])
    (hne : ∀ s ∈ services, s.ServiceName ≠ name) :
    servicesLoop aws host c name v n services
      = ⟨(if services.length = 0 then [.out (Sprintln ["  No services to describe.".toList])]
          else []),
         .ok { foundService := false, loadBalancers := [], eventsFlag := n }⟩ := by
  unfold servicesLoop
  by_cases h0 : services.length = 0
  · simp only [h0, if_true]
    rfl
  · simp only [h0, if_false]
    exact forFold_printService_skip aws host c name v services _ hname hne

theorem servicesLoop_avoids (aws : Aws) (host : Host) (c name : GoString) (v : Bool)
    (n : Int) (services : List Service) (hne : services ≠ []) :
    Run.All (avoids "  Service ".toList) (servicesLoop aws host c name v n services) := by
  unfold servicesLoop
  have h0 : ¬ services.length = 0 := fun h => hne (List.length_eq_zero.mp h)
  rw [if_neg h0]
  exact Run.All_forFold _ _ _ _ (fun s x => printService_avoids aws host c name v s x)

theorem servicesLoop_found (aws : Aws) (host : Host) (c name : GoString) (v : Bool)
    (n : Int) (services : List Service) (s : Service) (hs : s ∈ services)
    (hn : s.ServiceName = name) :
    Run.Post (fun v1 => v1.foundService = true)
      (servicesLoop aws host c name v n services) := by
  unfold servicesLoop
  have h0 : ¬ services.length = 0 := by
    intro h
    rw [List.length_eq_zero.mp h] at hs
    simp at hs
  rw [if_neg h0]
  intro v1 h1
  rw [forFold_printService_found aws host c name v services _ v1 h1]
  simp only [Bool.false_or, List.any_eq_true, decide_eq_true_eq]
  exact ⟨s, hs, hn.symm⟩

/-! ## Lemmas about the family map of `PrintTasks` -/

theorem lastOfFamily_cons (id : GoString) (rest : List GoString) (f : GoString) :
    lastOfFamily (id :: rest) f
      = match lastOfFamily rest f with
        | some x => some x
        | none => if familyOf id = f then some id else none := by
  unfold lastOfFamily
  rw [List.filter_cons]
  by_cases h : familyOf id = f
  · simp only [h, decide_True, if_true]
    cases hr : rest.filter (fun id => decide (familyOf id = f)) with
    | nil => rfl
    | cons x xs =>
      rw [List.getLast?_cons_cons]
      cases hl : (x :: xs).getLast? with
      | none => simp at hl
      | some y => rfl
  · simp only [h, decide_False, Bool.false_eq_true, if_false]
    cases (rest.filter fun id => decide (familyOf id = f)).getLast? <;> rfl

theorem mapSet_keys (m : List (GoString × GoString)) (k v : GoString) (k1 : GoString) :
    k1 ∈ (mapSet m k v).map Prod.fst ↔ k1 = k ∨ k1 ∈ m.map Prod.fst := by
  induction m with
  | nil => simp [mapSet]
  | cons e rest ih =>
    obtain ⟨a, b⟩ := e
    unfold mapSet
    by_cases h : a = k
    · simp only [h, if_true, List.map_cons, List.mem_cons]
      tauto
    · simp only [h, if_false, List.map_cons, List.mem_cons, ih]
      tauto

theorem mapSet_nodup (m : List (GoString × GoString)) (k v : GoString)
    (h : (m.map Prod.fst).Nodup) : ((mapSet m k v).map Prod.fst).Nodup := by
  induction m with
  | nil => simp [mapSet]
  | cons e rest ih =>
    obtain ⟨a, b⟩ := e
    unfold mapSet
    simp only [List.map_cons, List.nodup_cons] at h
    by_cases hk : a = k
    · simp only [hk, if_true, List.map_cons, List.nodup_cons]
      rw [← hk]; exact h
    · simp only [hk, if_false, List.map_cons, List.nodup_cons]
      refine ⟨?_, ih h.2⟩
      intro hmem
      rcases (mapSet_keys rest k v a).mp hmem with e | e
      · exact hk e
      · exact h.1 e

theorem mapSet_mem (m : List (GoString × GoString)) (k v : GoString)
    (h : (m.map Prod.fst).Nodup) (k1 v1 : GoString) :
    (k1, v1) ∈ mapSet m k v ↔ (k1 = k ∧ v1 = v) ∨ (k1 ≠ k ∧ (k1, v1) ∈ m) := by
  induction m with
  | nil => simp [mapSet]
  | cons e rest ih =>
    obtain ⟨a, b⟩ := e
    simp only [List.map_cons, List.nodup_cons] at h
    unfold mapSet
    by_cases hk : a = k
    · subst hk
      simp only [if_true, List.mem_cons, Prod.mk.injEq]
      constructor
      · rintro (⟨h1, h2⟩ | h1)
        · exact Or.inl ⟨h1, h2⟩
        · right
          refine ⟨?_, Or.inr h1⟩
          intro e
          exact h.1 (by rw [← e]; exact List.mem_map_of_mem Prod.fst h1)
      · rintro (⟨h1, h2⟩ | ⟨h1, h2 | h2⟩)
        · exact Or.inl ⟨h1, h2⟩
        · exact absurd h2.1 h1
        · exact Or.inr h2
    · simp only [hk, if_false, List.mem_cons, Prod.mk.injEq, ih h.2]
      constructor
      · rintro (⟨h1, h2⟩ | h1 | h1)
        · right
          exact ⟨by rw [h1]; exact hk, Or.inl ⟨h1, h2⟩⟩
        · exact Or.inl h1
        · exact Or.inr ⟨h1.1, Or.inr h1.2⟩
      · rintro (h1 | ⟨h1, h2 | h2⟩)
        · exact Or.inr (Or.inl h1)
        · exact Or.inl h2
        · exact Or.inr (Or.inr ⟨h1, h2⟩)

theorem familiesOf_nodup (listing : List GoString) (m : List (GoString × GoString))
    (h : (m.map Prod.fst).Nodup) : ((familiesOf listing m).map Prod.fst).Nodup := by
  induction listing generalizing m with
  | nil => exact h
  | cons id rest ih => exact ih _ (mapSet_nodup m _ _ h)

theorem familiesOf_mem (listing : List GoString) (m : List (GoString × GoString))
    (h : (m.map Prod.fst).Nodup) (f r : GoString) :
    (f, r) ∈ familiesOf listing m ↔
      (∃ id, lastOfFamily listing f = some id ∧ revisionOf id = r) ∨
      (lastOfFamily listing f = none ∧ (f, r) ∈ m) := by
  induction listing generalizing m with
  | nil =>
    have h0 : lastOfFamily [] f = none := rfl
    simp only [familiesOf, List.foldl_nil, h0, reduceCtorEq, false_and, exists_false,
      true_and, false_or]
  | cons id rest ih =>
    have hstep : familiesOf (id :: rest) m
        = familiesOf rest (mapSet m (familyOf id) (revisionOf id)) := rfl
    rw [hstep, ih _ (mapSet_nodup m _ _ h), lastOfFamily_cons, mapSet_mem m _ _ h]
    cases hl : lastOfFamily rest f with
    | some x => simp
    | none =>
      by_cases hf : familyOf id = f
      · subst hf
        simp only [reduceCtorEq, false_and, exists_false, true_and, false_or, ne_eq,
          not_true_eq_false, or_false, if_true, Option.some.injEq, exists_eq_left']
        exact eq_comm
      · have hf2 : ¬ f = familyOf id := fun e => hf e.symm
        simp only [reduceCtorEq, false_and, exists_false, true_and, false_or, hf, hf2,
          if_false, ne_eq, not_false_eq_true]

theorem printTasksStep_list (aws : Aws) (host : Host) (rev wanted : GoString) (total : Nat)
    (m : List (GoString × GoString)) (i : Nat) (id : GoString)
    (h : ':' ∈ getRevisionFromTaskDefinition id) :
    printTasksStep aws host [] rev wanted total m i id
      = ⟨[], .ok (mapSet m (familyOf id) (revisionOf id))⟩ := by
  have hlen := (strSplit_length_gt_one_iff ':' (getRevisionFromTaskDefinition id)).mpr h
  unfold printTasksStep familyOf revisionOf
  cases hsp : strSplit ':' (getRevisionFromTaskDefinition id) with
  | nil => rw [hsp] at hlen; simp at hlen
  | cons a rest =>
    cases rest with
    | nil => rw [hsp] at hlen; simp at hlen
    | cons b rest2 =>
      simp only [if_true, Run.bind_eq, indexM, index?, hsp, List.get?, Run.pure_eq,
        Run.andThen_ok, List.head?_cons, Option.getD_some, List.append_nil]

theorem forFoldIdx_printTasksStep (aws : Aws) (host : Host) (rev wanted : GoString)
    (total : Nat) (listing : List GoString) (i : Nat) (m : List (GoString × GoString))
    (h : ∀ id ∈ listing, ':' ∈ getRevisionFromTaskDefinition id) :
    forFoldIdx listing i m (printTasksStep aws host [] rev wanted total)
      = ⟨[], .ok (familiesOf listing m)⟩ := by
  induction listing generalizing i m with
  | nil => rfl
  | cons id rest ih =>
    unfold forFoldIdx
    rw [printTasksStep_list aws host rev wanted total m i id (h id (by simp))]
    simp only [Run.bind_eq, Run.andThen_ok, List.nil_append]
    rw [ih (i + 1) _ (fun x hx => h x (List.mem_cons_of_mem _ hx))]
    rfl

theorem forEach_emit {α : Type} (xs : List α) (f : α → GoString) :
    forEach xs (fun x => emit (f x)) = ⟨xs.map (fun x => .out (f x)), .ok ()⟩ := by
  induction xs with
  | nil => rfl
  | cons x xs ih =>
    rw [forEach]
    simp only [Run.bind_eq]
    rw [ih]
    rfl

theorem lastOfFamily_some_iff (listing : List GoString) (f : GoString) :
    (∃ id, lastOfFamily listing f = some id) ↔ ∃ id ∈ listing, familyOf id = f := by
  unfold lastOfFamily
  constructor
  · rintro ⟨id, h⟩
    have hmem : id ∈ listing.filter fun id => decide (familyOf id = f) :=
      List.mem_of_getLast?_eq_some h
    rcases List.mem_filter.mp hmem with ⟨h1, h2⟩
    exact ⟨id, h1, by simpa using h2⟩
  · rintro ⟨id, h1, h2⟩
    have hmem : id ∈ listing.filter fun id => decide (familyOf id = f) :=
      List.mem_filter.mpr ⟨h1, by simpa using h2⟩
    cases hl : (listing.filter fun id => decide (familyOf id = f)).getLast? with
    | none =>
      rw [List.getLast?_eq_none_iff] at hl
      rw [hl] at hmem
      simp at hmem
    | some x => exact ⟨x, rfl⟩

/-! ## Lemmas about verbose mode, unknown revisions and the selector of `PrintTasks` -/

theorem taskLines_true (rev : GoString) (t : Task) :
    taskLines true rev t = verboseEntries t ++ mismatchWarnings rev [t] := rfl

theorem mismatchWarnings_singleton (rev : GoString) (t : Task) :
    mismatchWarnings rev [t]
      = if getRevisionFromTaskDefinition t.TaskDefinitionArn ≠ rev
        then [Sprintln ["WARNING: task uses".toList,
          getRevisionFromTaskDefinition t.TaskDefinitionArn,
          "but service definition is".toList, rev]]
        else [] := by
  unfold mismatchWarnings
  by_cases h : getRevisionFromTaskDefinition t.TaskDefinitionArn = rev
  · simp only [h, ne_eq, not_true_eq_false, decide_False, List.filter_cons, List.filter_nil,
      Bool.false_eq_true, if_false, List.map_nil]
  · simp only [h, ne_eq, not_false_eq_true, decide_True, List.filter_cons, List.filter_nil,
      if_true, List.map_cons, List.map_nil, revisionWarning]

theorem mismatchWarnings_unknown (ref : GoString) (tasks : List Task)
    (href : '/' ∉ ref) (ht : ∀ t ∈ tasks, '/' ∉ t.TaskDefinitionArn) :
    mismatchWarnings (getRevisionFromTaskDefinition ref) tasks = [] := by
  unfold mismatchWarnings
  rw [List.map_eq_nil_iff, List.filter_eq_nil_iff]
  intro t hmem
  rw [getRevision_of_not_mem ref href, getRevision_of_not_mem _ (ht t hmem)]
  simp only [ne_eq, not_true_eq_false, decide_False, Bool.false_eq_true, not_false_eq_true]

theorem taskLines_unknown (v : Bool) (ref : GoString) (tasks : List Task)
    (href : '/' ∉ ref) (ht : ∀ t ∈ tasks, '/' ∉ t.TaskDefinitionArn) :
    tasks.flatMap (taskLines v (getRevisionFromTaskDefinition ref))
      = tasks.flatMap (fun t => if v = true then verboseEntries t else []) := by
  induction tasks with
  | nil => rfl
  | cons t ts ih =>
    rw [List.flatMap_cons, List.flatMap_cons,
      ih (fun x hx => ht x (List.mem_cons_of_mem _ hx))]
    congr 1
    have hm := mismatchWarnings_unknown ref [t] href (fun x hx => by
      rw [List.mem_singleton] at hx
      rw [hx]
      exact ht t (by simp))
    unfold taskLines
    rw [hm, List.append_nil]
    rfl

theorem flatMap_const_nil {α β : Type} (xs : List α) :
    xs.flatMap (fun _ => ([] : List β)) = [] := by
  induction xs with
  | nil => rfl
  | cons x xs ih => rw [List.flatMap_cons, ih]; rfl

theorem Run.bind_ok {α β : Type} (m : Run α) (f : α → Run β) (a : α) (b : β)
    (hm : m.outcome = .ok a) (hf : (f a).outcome = .ok b) : (m >>= f).outcome = .ok b := by
  rw [Run.bind_eq, Run.andThen_of_ok m f a hm]
  exact hf

theorem whenever_ok (c : Prop) [Decidable c] (body : Run Unit)
    (h : body.outcome = .ok ()) : (whenever c body).outcome = .ok () := by
  unfold whenever
  split
  · exact h
  · rfl

theorem forEach_ok {α : Type} (xs : List α) (body : α → Run Unit)
    (h : ∀ x, (body x).outcome = .ok ()) : (forEach xs body).outcome = .ok () := by
  induction xs with
  | nil => rfl
  | cons x xs ih =>
    unfold forEach
    exact Run.bind_ok _ _ () () (h x) ih

theorem printContainerDefinition_ok (host : Host) (v : Bool) (cd : ContainerDefinition) :
    (printContainerDefinition host v cd).outcome = .ok () := by
  unfold printContainerDefinition
  refine Run.bind_ok _ _ () () rfl ?_
  refine Run.bind_ok _ _ () () rfl ?_
  refine Run.bind_ok _ _ () () (whenever_ok _ _ rfl) ?_
  refine Run.bind_ok _ _ () () (forEach_ok _ _ (fun _ => rfl)) ?_
  refine Run.bind_ok _ _ () () (whenever_ok _ _ rfl) ?_
  refine Run.bind_ok _ _ () () (whenever_ok _ _ rfl) ?_
  refine whenever_ok _ _ ?_
  exact Run.bind_ok _ _ () () rfl (forEach_ok _ _ (fun _ => rfl))

theorem requestsOf_append (a b : List Event) :
    requestsOf (a ++ b) = requestsOf a ++ requestsOf b := by
  induction a with
  | nil => rfl
  | cons e rest ih =>
    cases e with
    | out s => simpa [requestsOf] using ih
    | call r => simpa [requestsOf] using ih

theorem requestsOf_eq_nil (t : List Event) (h : ∀ e ∈ t, ∀ r, e ≠ .call r) :
    requestsOf t = [] := by
  induction t with
  | nil => rfl
  | cons e rest ih =>
    cases e with
    | out s =>
      simp only [requestsOf]
      exact ih (fun x hx => h x (List.mem_cons_of_mem _ hx))
    | call r => exact absurd rfl (h _ (by simp) r)

theorem printContainerDefinition_prints (host : Host) (v : Bool) (cd : ContainerDefinition) :
    Run.All (fun e => ∀ r, e ≠ .call r) (printContainerDefinition host v cd) := by
  have hout : ∀ s, (fun e : Event => ∀ r, e ≠ .call r) (.out s) := by
    intro s r h; cases h
  have hp : ∀ ops, Run.All (fun e => ∀ r, e ≠ .call r) (Println ops) :=
    fun ops => Run.All_emit _ _ (hout _)
  have he : ∀ s, Run.All (fun e => ∀ r, e ≠ .call r) (emit s) :=
    fun s => Run.All_emit _ _ (hout _)
  unfold printContainerDefinition
  refine Run.All_bind _ _ _ (hp _) (fun _ => ?_)
  refine Run.All_bind _ _ _ (hp _) (fun _ => ?_)
  refine Run.All_bind _ _ _ (Run.All_whenever _ _ _ ?_) (fun _ => ?_)
  · exact Run.All_bind _ _ _ (hp _) (fun _ => hp _)
  refine Run.All_bind _ _ _ (Run.All_forEach _ _ _ (fun _ => hp _)) (fun _ => ?_)
  refine Run.All_bind _ _ _ (Run.All_whenever _ _ _ (he _)) (fun _ => ?_)
  refine Run.All_bind _ _ _ (Run.All_whenever _ _ _ (he _)) (fun _ => ?_)
  refine Run.All_whenever _ _ _ ?_
  exact Run.All_bind _ _ _ (hp _) (fun _ => Run.All_forEach _ _ _ (fun _ => hp _))

/-- A task definition that is answered is described to the end, with one request. -/
theorem PrintTaskDefinition_answered (aws : Aws) (host : Host) (id : GoString) (v : Bool)
    (td : TaskDefinition) (h : aws.DescribeTaskDefinition id = .ok td) :
    (PrintTaskDefinition aws host id v).outcome = .ok () ∧
    requestsOf (PrintTaskDefinition aws host id v).trace = [.DescribeTaskDefinition id] := by
  have hbody : (forEach td.ContainerDefinitions (printContainerDefinition host v)).outcome
      = .ok () := forEach_ok _ _ (printContainerDefinition_ok host v)
  have hreq : requestsOf (forEach td.ContainerDefinitions
      (printContainerDefinition host v)).trace = [] :=
    requestsOf_eq_nil _ (Run.All_forEach _ _ _ (printContainerDefinition_prints host v))
  unfold PrintTaskDefinition
  simp only [Run.bind_eq, call, h, Run.andThen_ok, Reply.err, CheckError, output, Run.pure_eq,
    Println, emit, hbody, List.nil_append, List.singleton_append, requestsOf, hreq, and_self]

theorem whenever_eq_of_ok (c : Prop) [Decidable c] (body : Run Unit)
    (h : c → body.outcome = .ok ()) :
    whenever c body = ⟨if c then body.trace else [], .ok ()⟩ := by
  unfold whenever
  by_cases hc : c
  · have hb := h hc
    cases body with
    | mk t o =>
      simp only at hb
      subst hb
      simp only [hc, if_true]
  · simp only [hc, if_false]
    rfl

theorem printTasksStep_other (aws : Aws) (host : Host) (F R wanted : GoString) (total : Nat)
    (m : List (GoString × GoString)) (i : Nat) (id : GoString)
    (hF : F ≠ []) (hw : wanted ≠ "latest".toList)
    (hd : R = [] ∨ wanted = getRevisionFromTaskDefinition id →
      (PrintTaskDefinition aws host id true).outcome = .ok ()) :
    printTasksStep aws host F R wanted total m i id
      = ⟨if R = [] ∨ wanted = getRevisionFromTaskDefinition id
          then (PrintTaskDefinition aws host id true).trace else [], .ok m⟩ := by
  unfold printTasksStep
  simp only [hF, hw, if_false, Run.bind_eq, whenever_eq_of_ok _ _ hd, Run.andThen_ok,
    Run.pure_eq, List.append_nil]

theorem printTasksStep_latest (aws : Aws) (host : Host) (F R : GoString) (total : Nat)
    (m : List (GoString × GoString)) (i : Nat) (id : GoString)
    (hF : F ≠ [])
    (hd : i + 1 = total → (PrintTaskDefinition aws host id true).outcome = .ok ()) :
    printTasksStep aws host F R "latest".toList total m i id
      = ⟨if i + 1 = total then (PrintTaskDefinition aws host id true).trace else [], .ok m⟩ := by
  unfold printTasksStep
  simp only [hF, if_false, if_true, Run.bind_eq, whenever_eq_of_ok _ _ hd, Run.andThen_ok,
    Run.pure_eq, List.append_nil]

theorem forFoldIdx_other (aws : Aws) (host : Host) (F R wanted : GoString) (total : Nat)
    (listing : List GoString) (i : Nat) (m : List (GoString × GoString))
    (hF : F ≠ []) (hw : wanted ≠ "latest".toList)
    (hd : ∀ id ∈ listing, R = [] ∨ wanted = getRevisionFromTaskDefinition id →
      (PrintTaskDefinition aws host id true).outcome = .ok ()) :
    forFoldIdx listing i m (printTasksStep aws host F R wanted total)
      = ⟨(listing.filter fun id =>
            decide (R = [] ∨ wanted = getRevisionFromTaskDefinition id)).flatMap
          (fun id => (PrintTaskDefinition aws host id true).trace), .ok m⟩ := by
  induction listing generalizing i with
  | nil => rfl
  | cons id rest ih =>
    unfold forFoldIdx
    rw [printTasksStep_other aws host F R wanted total m i id hF hw (hd id (by simp))]
    simp only [Run.bind_eq, Run.andThen_ok]
    rw [ih (i + 1) (fun x hx => hd x (List.mem_cons_of_mem _ hx))]
    by_cases hp : R = [] ∨ wanted = getRevisionFromTaskDefinition id
    · simp only [hp, if_true, List.filter_cons, decide_True, List.flatMap_cons]
    · simp only [hp, if_false, List.filter_cons, decide_False, Bool.false_eq_true,
        List.nil_append]

theorem forFoldIdx_latest (aws : Aws) (host : Host) (F R : GoString) (total : Nat)
    (listing : List GoString) (i : Nat) (m : List (GoString × GoString))
    (hF : F ≠ []) (htotal : total = i + listing.length)
    (hd : ∀ id, listing.getLast? = some id →
      (PrintTaskDefinition aws host id true).outcome = .ok ()) :
    forFoldIdx listing i m (printTasksStep aws host F R "latest".toList total)
      = ⟨listing.getLast?.toList.flatMap
          (fun id => (PrintTaskDefinition aws host id true).trace), .ok m⟩ := by
  induction listing generalizing i with
  | nil => rfl
  | cons id rest ih =>
    unfold forFoldIdx
    cases rest with
    | nil =>
      have h1 : i + 1 = total := by rw [htotal]; rfl
      rw [printTasksStep_latest aws host F R total m i id hF (fun _ => hd id rfl)]
      simp only [Run.bind_eq, Run.andThen_ok]
      rw [ih (i + 1) (by rw [htotal, List.length_cons]; omega)
        (fun x hx => by simp at hx)]
      simp only [h1, if_true, List.getLast?_nil, Option.toList, List.flatMap_nil,
        List.append_nil, List.getLast?_singleton, List.flatMap_cons]
    | cons x xs =>
      have h1 : ¬ (i + 1 = total) := by
        rw [htotal]; simp only [List.length_cons]; omega
      rw [printTasksStep_latest aws host F R total m i id hF (fun h => absurd h h1)]
      simp only [Run.bind_eq, Run.andThen_ok]
      rw [ih (i + 1) (by rw [htotal, List.length_cons]; omega)
        (fun y hy => hd y (by rw [List.getLast?_cons_cons]; exact hy))]
      simp only [h1, if_false, List.nil_append, List.getLast?_cons_cons]

theorem wanted_ne_latest (F R : GoString) : F ++ ":".toList ++ R ≠ "latest".toList := by
  intro h
  have hmem : ':' ∈ F ++ ":".toList ++ R := by simp
  rw [h] at hmem
  revert hmem
  decide

theorem requestsOf_flatMap (aws : Aws) (host : Host) (xs : List GoString)
    (hd : ∀ id ∈ xs, ∃ td, aws.DescribeTaskDefinition id = .ok td) :
    requestsOf (xs.flatMap fun id => (PrintTaskDefinition aws host id true).trace)
      = xs.map Request.DescribeTaskDefinition := by
  induction xs with
  | nil => rfl
  | cons x rest ih =>
    obtain ⟨td, htd⟩ := hd x (by simp)
    rw [List.flatMap_cons, requestsOf_append,
      (PrintTaskDefinition_answered aws host x true td htd).2,
      ih (fun y hy => hd y (List.mem_cons_of_mem _ hy))]
    rfl

/-- The run of `PrintTasks` with a non-empty family filter, in terms of the runs of
`PrintTaskDefinition` on the selected definitions. -/
theorem PrintTasks_selected_run (aws : Aws) (host : Host) (taskFamily taskRevision : GoString)
    (listing : List GoString)
    (hF : taskFamily ≠ [])
    (hl : aws.ListTaskDefinitions (some taskFamily) = .ok listing)
    (hd : ∀ id ∈ selectedDefinitions taskFamily taskRevision listing,
      ∃ td, aws.DescribeTaskDefinition id = .ok td) :
    PrintTasks aws host taskFamily taskRevision
      = ⟨.call (.ListTaskDefinitions (some taskFamily)) ::
          (selectedDefinitions taskFamily taskRevision listing).flatMap
            (fun id => (PrintTaskDefinition aws host id true).trace),
         .ok ()⟩ ∧
    requestsOf (PrintTasks aws host taskFamily taskRevision).trace
      = .ListTaskDefinitions (some taskFamily) ::
          (selectedDefinitions taskFamily taskRevision listing).map .DescribeTaskDefinition := by
  have hok : ∀ id ∈ selectedDefinitions taskFamily taskRevision listing,
      (PrintTaskDefinition aws host id true).outcome = .ok () := by
    intro id hid
    obtain ⟨td, htd⟩ := hd id hid
    exact (PrintTaskDefinition_answered aws host id true td htd).1
  have hrun : PrintTasks aws host taskFamily taskRevision
      = ⟨.call (.ListTaskDefinitions (some taskFamily)) ::
          (selectedDefinitions taskFamily taskRevision listing).flatMap
            (fun id => (PrintTaskDefinition aws host id true).trace),
         .ok ()⟩ := by
    unfold PrintTasks selectedDefinitions
    by_cases hlatest : taskRevision = "latest".toList
    · simp only [hlatest, if_true, hF, ne_eq, not_false_eq_true, Run.bind_eq, call, hl,
        Run.andThen_ok, Reply.err, CheckError, output, Run.pure_eq,
        forFoldIdx_latest aws host taskFamily "latest".toList listing.length listing 0 []
          hF (by omega) (fun id hid => hok id (by
            unfold selectedDefinitions
            rw [if_pos hlatest, Option.mem_toList]
            exact hid)),
        whenever, if_false, List.nil_append, List.append_nil, List.singleton_append]
    · have hw := wanted_ne_latest taskFamily taskRevision
      have hok2 : ∀ id ∈ listing, taskRevision = [] ∨
          taskFamily ++ ":".toList ++ taskRevision = getRevisionFromTaskDefinition id →
          (PrintTaskDefinition aws host id true).outcome = .ok () := by
        intro id hid hsel
        refine hok id ?_
        unfold selectedDefinitions
        rw [if_neg hlatest]
        by_cases hempty : taskRevision = []
        · rw [if_pos hempty]; exact hid
        · rw [if_neg hempty]
          rcases hsel with h1 | h1
          · exact absurd h1 hempty
          · exact List.mem_filter.mpr ⟨hid, by simp only [h1, decide_True]⟩
      simp only [hlatest, if_false, hF, ne_eq, not_false_eq_true, if_true, Run.bind_eq, call, hl,
        Run.andThen_ok, Reply.err, CheckError, output, Run.pure_eq,
        forFoldIdx_other aws host taskFamily taskRevision _ listing.length listing 0 []
          hF hw hok2,
        whenever, List.nil_append, List.append_nil, List.singleton_append]
      by_cases hempty : taskRevision = []
      · simp only [hempty, true_or, decide_True, List.filter_true, if_true]
      · have hfun : (fun id => decide (taskRevision = [] ∨
            taskFamily ++ ":".toList ++ taskRevision = getRevisionFromTaskDefinition id))
            = fun id => decide (getRevisionFromTaskDefinition id
                = taskFamily ++ ":".toList ++ taskRevision) := by
          funext id
          simp only [hempty, false_or, eq_comm]
        rw [hfun]
        simp only [hempty, if_false]
  refine ⟨hrun, ?_⟩
  rw [hrun]
  simp only [requestsOf]
  rw [requestsOf_flatMap aws host _ hd]

theorem forEach_Println_map {α : Type} (xs : List α) (f : α → List GoString) :
    forEach xs (fun x => Println (f x)) = ⟨xs.map (fun x => .out (Sprintln (f x))), .ok ()⟩ :=
  forEach_emit xs (fun x => Sprintln (f x))

theorem printContainerDefinition_true (host : Host) (cd : ContainerDefinition) :
    printContainerDefinition host true cd = ⟨containerDescription host cd, .ok ()⟩ := by
  unfold printContainerDefinition containerDescription
  simp only [forEach_Println_map, whenever, and_true, if_true, Run.bind_eq]
  by_cases h1 : cd.Command.length > 0 <;> by_cases h2 : cd.EntryPoint.length > 0 <;>
    by_cases h3 : cd.Environment.length > 0 <;>
    simp only [h1, h2, h3, if_true, if_false, Println, emit, Run.andThen_ok, Run.pure_eq,
      List.nil_append, List.append_nil, List.singleton_append, List.cons_append,
      List.append_assoc]

theorem forEach_eq_flatMap {α : Type} (xs : List α) (body : α → Run Unit)
    (g : α → List Event) (h : ∀ x, body x = ⟨g x, .ok ()⟩) :
    forEach xs body = ⟨xs.flatMap g, .ok ()⟩ := by
  induction xs with
  | nil => rfl
  | cons x xs ih =>
    rw [forEach, h x]
    simp only [Run.bind_eq, Run.andThen_ok]
    rw [ih]
    rfl

/-- The run of `PrintTaskDefinition`, in verbose mode, on a definition that is
answered. -/
theorem PrintTaskDefinition_lines (aws : Aws) (host : Host) (id : GoString)
    (td : TaskDefinition) (h : aws.DescribeTaskDefinition id = .ok td) :
    PrintTaskDefinition aws host id true
      = ⟨[.call (.DescribeTaskDefinition id),
          .out (Sprintln ["  - Task Definition:".toList, id]),
          .out (Sprintln ["    - Family:".toList, td.Family])]
          ++ td.ContainerDefinitions.flatMap (containerDescription host),
         .ok ()⟩ := by
  unfold PrintTaskDefinition
  simp only [Run.bind_eq, call, h, Run.andThen_ok, Reply.err, CheckError, output, Run.pure_eq,
    Println, emit,
    forEach_eq_flatMap _ _ _ (printContainerDefinition_true host),
    List.nil_append, List.singleton_append, List.cons_append]

theorem flatMap_congr_mem {α β : Type} (xs : List α) (f g : α → List β)
    (h : ∀ x ∈ xs, f x = g x) : xs.flatMap f = xs.flatMap g := by
  induction xs with
  | nil => rfl
  | cons x xs ih =>
    rw [List.flatMap_cons, List.flatMap_cons, h x (by simp),
      ih (fun y hy => h y (List.mem_cons_of_mem _ hy))]

/-! ## The claims -/

/-- C1. `getRevisionFromTaskDefinition`: for every reference that contains at least
one `/`, the result is exactly the text after the last `/` (whatever decomposition
`pre ++ "/" ++ suf` with no `/` in `suf` the reference has, the result is `suf`,
possibly empty); for every reference without `/`, the result is the sentinel
`"unknown"`. -/
theorem getRevisionFromTaskDefinition_spec (ref : GoString) :
    (∀ pre suf : GoString, ref = pre ++ '/' :: suf → '/' ∉ suf →
        getRevisionFromTaskDefinition ref = suf) ∧
    ('/' ∉ ref → getRevisionFromTaskDefinition ref = "unknown".toList) := by
  refine ⟨?_, getRevision_of_not_mem ref⟩
  intro pre suf hdec hsuf
  rw [hdec]
  exact getRevision_of_split pre suf hsuf

/-- C1, at concrete references: an ARN gives its `family:revision` suffix, a
reference ending in `/` gives the empty text, a reference without `/` gives
`"unknown"`. -/
theorem getRevisionFromTaskDefinition_spec_witness :
    getRevisionFromTaskDefinition
        "arn:aws:ecs:us-west-2:751992077663:task-definition/demonstration:8".toList
      = "demonstration:8".toList ∧
    getRevisionFromTaskDefinition "a/b/".toList = [] ∧
    getRevisionFromTaskDefinition "demonstration:8".toList = "unknown".toList :=
  ⟨(getRevisionFromTaskDefinition_spec _).1
      "arn:aws:ecs:us-west-2:751992077663:task-definition".toList "demonstration:8".toList
      (by decide) (by decide),
   (getRevisionFromTaskDefinition_spec _).1 "a/b".toList [] (by decide) (by decide),
   (getRevisionFromTaskDefinition_spec _).2 (by decide)⟩

/-- C2. `CheckServiceTasks` in non-verbose mode: whatever the service reference and
whatever tasks `getServiceTasks` hands over, the returned list consists of one
revision-mismatch warning for each task whose revision key differs from the service
revision key and none for the others, in task order, each naming the revision key of
the task and that of the service; the only other entry it can have is the closing
"No tasks in RUNNING state" warning. -/
theorem CheckServiceTasks_mismatch (aws : Aws) (clusterName serviceName ref : GoString)
    (tasks : List Task)
    (h : (getServiceTasks aws clusterName serviceName).outcome = .ok tasks) :
    (CheckServiceTasks aws clusterName serviceName false ref).outcome
      = .ok ((tasks.filter fun t =>
                decide (getRevisionFromTaskDefinition t.TaskDefinitionArn
                  ≠ getRevisionFromTaskDefinition ref)).map
              (fun t => Sprintln ["WARNING: task uses".toList,
                getRevisionFromTaskDefinition t.TaskDefinitionArn,
                "but service definition is".toList, getRevisionFromTaskDefinition ref])
              ++ (if runningCount tasks = 0 then [noRunningWarning] else []),
             runningCount tasks) := by
  rw [CheckServiceTasks_outcome aws clusterName serviceName false ref tasks h,
    ← mismatchWarnings_eq_flatMap]
  rfl

/-- C2, the example of the specification: a service on revision `fam:5` with three
running tasks on `fam:5`, `fam:5` and `fam:4` gets exactly one warning, for the task
on `fam:4`. -/
theorem CheckServiceTasks_mismatch_witness :
    (CheckServiceTasks
        (awsWithTasks [taskOn "td/fam:5".toList "RUNNING".toList,
          taskOn "td/fam:5".toList "RUNNING".toList,
          taskOn "td/fam:4".toList "RUNNING".toList])
        "cluster".toList "web".toList false "td/fam:5".toList).outcome
      = .ok ([Sprintln ["WARNING: task uses".toList, "fam:4".toList,
                "but service definition is".toList, "fam:5".toList]], 3) :=
  (CheckServiceTasks_mismatch _ _ _ _ _ (by rfl)).trans (by decide)

/-- C3. `CheckServiceTasks`, in either mode and whatever the revisions: the returned
count is the number of tasks whose last status is exactly `RUNNING`; the "No tasks in
RUNNING state" warning is in the returned list if and only if that count is zero
(also for the empty task list), it never occurs more than once, and when it occurs
it is the last entry. -/
theorem CheckServiceTasks_running (aws : Aws) (clusterName serviceName ref : GoString)
    (verboseFlag : Bool) (tasks : List Task)
    (h : (getServiceTasks aws clusterName serviceName).outcome = .ok tasks) :
    ∃ warnings : List GoString,
      (CheckServiceTasks aws clusterName serviceName verboseFlag ref).outcome
        = .ok (warnings, tasks.countP fun t => decide (t.LastStatus = "RUNNING".toList)) ∧
      (noRunningWarning ∈ warnings ↔
        (tasks.countP fun t => decide (t.LastStatus = "RUNNING".toList)) = 0) ∧
      warnings.count noRunningWarning ≤ 1 ∧
      (noRunningWarning ∈ warnings → warnings.getLast? = some noRunningWarning) := by
  refine ⟨_, CheckServiceTasks_outcome aws clusterName serviceName verboseFlag ref tasks h,
    ?_, ?_, ?_⟩
  · have hn := noRunningWarning_not_mem_flatMap verboseFlag
      (getRevisionFromTaskDefinition ref) tasks
    by_cases h0 : runningCount tasks = 0
    · have h0b := h0
      unfold runningCount at h0b
      simp only [h0, if_true, List.mem_append, List.mem_singleton, or_true, true_iff]
      exact h0b
    · have h0b := h0
      unfold runningCount at h0b
      simp only [h0, if_false, List.append_nil, hn, false_iff]
      exact h0b
  · have hn := noRunningWarning_not_mem_flatMap verboseFlag
      (getRevisionFromTaskDefinition ref) tasks
    rw [List.count_append, List.count_eq_zero_of_not_mem hn]
    by_cases h0 : runningCount tasks = 0
    · simp only [h0, if_true, List.count_singleton_self, Nat.zero_add, Nat.le_refl]
    · simp only [h0, if_false, List.count_nil, Nat.zero_add, Nat.zero_le]
  · intro hmem
    have hn := noRunningWarning_not_mem_flatMap verboseFlag
      (getRevisionFromTaskDefinition ref) tasks
    by_cases h0 : runningCount tasks = 0
    · simp only [h0, if_true, List.getLast?_append, List.getLast?_singleton]
      rfl
    · simp only [h0, if_false, List.append_nil] at hmem
      exact absurd hmem hn

/-- C3, at concrete inputs: with no task at all, and with tasks none of which is
`RUNNING` (one of them on another revision), the count is zero and the warning
closes the list. -/
theorem CheckServiceTasks_running_witness :
    (∃ warnings : List GoString,
      (CheckServiceTasks (awsWithTasks []) "cluster".toList "web".toList true
          "td/fam:5".toList).outcome
        = .ok (warnings, ([] : List Task).countP
            fun t => decide (t.LastStatus = "RUNNING".toList)) ∧
      (noRunningWarning ∈ warnings ↔
        (([] : List Task).countP fun t => decide (t.LastStatus = "RUNNING".toList)) = 0) ∧
      warnings.count noRunningWarning ≤ 1 ∧
      (noRunningWarning ∈ warnings → warnings.getLast? = some noRunningWarning)) ∧
    (CheckServiceTasks
        (awsWithTasks [taskOn "td/fam:4".toList "STOPPED".toList,
          taskOn "td/fam:5".toList "PENDING".toList])
        "cluster".toList "web".toList false "td/fam:5".toList).outcome
      = .ok ([Sprintln ["WARNING: task uses".toList, "fam:4".toList,
                "but service definition is".toList, "fam:5".toList],
              noRunningWarning], 0) :=
  ⟨CheckServiceTasks_running (awsWithTasks []) "cluster".toList "web".toList
      "td/fam:5".toList true [] (by rfl),
   by decide⟩

/-- C4. `CheckService`: whatever service, tasks and load-balancer descriptions the
remote services return, with `taskRunning` the running count that `CheckServiceTasks`
returned, the run ends normally and what it does splits into a part without any ELB
mismatch warning (for whatever two numbers) followed by exactly one such warning,
naming the sum of the registered-instance counts over all descriptions and
`taskRunning`, when these two numbers differ, and by nothing when they are equal. -/
theorem CheckService_elb (aws : Aws) (clusterName serviceName : GoString) (verboseFlag : Bool)
    (serviceDef : Service) (others : List Service)
    (taskWarnings : List GoString) (taskRunning : Nat)
    (descriptions : List LoadBalancerDescription)
    (hs : aws.DescribeServices clusterName [serviceName] = .ok (serviceDef :: others))
    (ht : (CheckServiceTasks aws clusterName serviceName verboseFlag
            serviceDef.TaskDefinition).outcome = .ok (taskWarnings, taskRunning))
    (hl : aws.DescribeLoadBalancers (serviceDef.LoadBalancers.map fun b => b.LoadBalancerName)
            = .ok descriptions) :
    ∃ before : List Event,
      (∀ e ∈ before, ∀ a b : Nat, e ≠ .out (Sprintln ["WARNING: ELB instance count of".toList,
          fmtNat a, "is different from number of running tasks".toList, fmtNat b])) ∧
      CheckService aws clusterName serviceName verboseFlag
        = ⟨before ++
            (if (descriptions.map fun balancer => balancer.Instances.length).sum ≠ taskRunning
             then [.out (Sprintln ["WARNING: ELB instance count of".toList,
                fmtNat (descriptions.map fun balancer => balancer.Instances.length).sum,
                "is different from number of running tasks".toList, fmtNat taskRunning])]
             else []),
           .ok ()⟩ := by
  obtain ⟨tasks, hg, htr⟩ := CheckServiceTasks_inv _ _ _ _ _ _ _ ht
  have hrun : CheckServiceTasks aws clusterName serviceName verboseFlag serviceDef.TaskDefinition
      = ⟨(getServiceTasks aws clusterName serviceName).trace, .ok (taskWarnings, taskRunning)⟩ := by
    rw [← htr, ← ht]
  refine ⟨[.call (.DescribeServices clusterName [serviceName])]
      ++ (getServiceTasks aws clusterName serviceName).trace
      ++ taskWarnings.map (fun msg => .out (Sprintln [msg]))
      ++ [.call (.DescribeLoadBalancers (serviceDef.LoadBalancers.map fun b => b.LoadBalancerName))],
    ?_, ?_⟩
  · have hopen : ∀ lit ∈ checkOpenings, ∀ (y rest : GoString) (a b : Nat),
        lit ++ y ≠ Sprintln ["WARNING: ELB instance count of".toList, fmtNat a,
          "is different from number of running tasks".toList, fmtNat b] := by
      intro lit hlit y rest a b
      rw [Sprintln_cons_cons]
      refine clash_append _ _ _ _ ?_
      revert lit
      decide
    intro e he a b
    simp only [List.append_assoc, List.mem_append, List.mem_singleton, List.mem_map] at he
    rcases he with he | he | ⟨m, hm, he⟩ | he
    · rw [he]; intro hc; cases hc
    · refine getServiceTasks_All
        (fun e => ∀ a b : Nat, e ≠ .out (Sprintln ["WARNING: ELB instance count of".toList,
          fmtNat a, "is different from number of running tasks".toList, fmtNat b]))
        aws clusterName serviceName ?_ ?_ e he a b
      · intro r a b hc; cases hc
      · intro ops a b hc
        injection hc with hc
        exact Sprintln_ne_of_clash _ _ _ _ (by decide) hc
    · obtain ⟨lit, hlit, y, hy⟩ := CheckServiceTasks_entries_open _ _ _ _ _ _ _ ht m hm
      rw [← he, hy, Sprintln_singleton, List.append_assoc]
      intro hc
      injection hc with hc
      exact hopen lit hlit _ [] a b hc
    · rw [he]; intro hc; cases hc
  · unfold CheckService GetElbData
    simp only [Run.bind_eq, whenever, call, hs, hrun, hl, Run.andThen_ok, Reply.err, CheckError, output,
      Run.pure_eq, indexM, index?, List.get?, List.length_cons, forEach_Println,
      foldl_add_length, Nat.zero_add]
    have hlen : ¬ (others.length + 1 < 1) := by omega
    simp only [hlen, if_false, List.nil_append, List.append_nil, List.append_assoc,
      Run.andThen_ok]
    by_cases hne : (descriptions.map fun balancer => balancer.Instances.length).sum = taskRunning
    · simp only [hne, ne_eq, not_true_eq_false, if_false, List.append_nil]
    · simp only [hne, ne_eq, not_false_eq_true, if_true, emit, elbWarning]

/-- C4, the example of the specification: three registered instances over two load
balancers against two running tasks give one warning naming 3 and 2. -/
theorem CheckService_elb_witness :
    ∃ before : List Event,
      (∀ e ∈ before, ∀ a b : Nat, e ≠ .out (Sprintln ["WARNING: ELB instance count of".toList,
          fmtNat a, "is different from number of running tasks".toList, fmtNat b])) ∧
      CheckService
          (awsFor [serviceOn "web".toList "td/fam:5".toList [] []]
            [taskOn "td/fam:5".toList "RUNNING".toList, taskOn "td/fam:5".toList "RUNNING".toList]
            (definitionOf "fam".toList [])
            [balancerWith "a".toList ["i-1".toList, "i-2".toList],
             balancerWith "b".toList ["i-3".toList]])
          "cluster".toList "web".toList false
        = ⟨before ++ [.out (Sprintln ["WARNING: ELB instance count of".toList, "3".toList,
                "is different from number of running tasks".toList, "2".toList])],
           .ok ()⟩ :=
  CheckService_elb
    (awsFor [serviceOn "web".toList "td/fam:5".toList [] []]
      [taskOn "td/fam:5".toList "RUNNING".toList, taskOn "td/fam:5".toList "RUNNING".toList]
      (definitionOf "fam".toList [])
      [balancerWith "a".toList ["i-1".toList, "i-2".toList],
       balancerWith "b".toList ["i-3".toList]])
    "cluster".toList "web".toList false (serviceOn "web".toList "td/fam:5".toList [] []) []
    [] 2
    [balancerWith "a".toList ["i-1".toList, "i-2".toList], balancerWith "b".toList ["i-3".toList]]
    (by rfl) (by decide) (by rfl)

/-- C5. `UpdateService` with a shorthand input beginning with `:`, for a service whose
current task definition has one container definition with image `container.Image`:
if splitting the current image on `:` yields more than two segments, the run exits
with status 1 right after fetching the task definition, before anything is
registered; otherwise the image computation does not fail: the new image is the
first segment followed by the input verbatim, it is what is announced and what is
submitted in the registration request, and the run ends normally whenever the
registration and the service update are answered. -/
theorem UpdateService_image (aws : Aws) (clusterName serviceName tag : GoString)
    (service0 : Service) (others : List Service) (taskDefn : TaskDefinition)
    (container : ContainerDefinition)
    (hs : aws.DescribeServices clusterName [serviceName] = .ok (service0 :: others))
    (htd : aws.DescribeTaskDefinition service0.TaskDefinition = .ok taskDefn)
    (hc : taskDefn.ContainerDefinitions = [container]) :
    ((strSplit ':' container.Image).length > 2 →
      UpdateService aws clusterName serviceName (':' :: tag)
        = ⟨[.out (Sprintln ["Updating service".toList, serviceName]),
            .call (.DescribeServices clusterName [serviceName]),
            .call (.DescribeTaskDefinition service0.TaskDefinition),
            .out (Sprintln ["Split on colon found more than two elements in current image URL".toList])],
           .exit 1⟩) ∧
    (¬ (strSplit ':' container.Image).length > 2 →
      ∃ (repository : GoString) (segments : List GoString) (after : List Event),
        strSplit ':' container.Image = repository :: segments ∧
        (UpdateService aws clusterName serviceName (':' :: tag)).trace
          = [.out (Sprintln ["Updating service".toList, serviceName]),
             .call (.DescribeServices clusterName [serviceName]),
             .call (.DescribeTaskDefinition service0.TaskDefinition),
             .out (Sprintln ["  - Task Definition:".toList, taskDefn.Family]),
             .out (Sprintln ["  - Current image:".toList, container.Image]),
             .out (Sprintln ["  - Updating to:".toList, repository ++ ':' :: tag]),
             .call (.RegisterTaskDefinition taskDefn.Family
                [{ container with Image := repository ++ ':' :: tag }] taskDefn.Volumes)]
            ++ after ∧
        ∀ (registered : TaskDefinition) (updated : Service),
          aws.RegisterTaskDefinition taskDefn.Family
              [{ container with Image := repository ++ ':' :: tag }] taskDefn.Volumes
            = .ok registered →
          aws.UpdateService clusterName serviceName registered.TaskDefinitionArn = .ok updated →
          (UpdateService aws clusterName serviceName (':' :: tag)).outcome = .ok ()) := by
  have hp : strHasPrefix (':' :: tag) ":".toList = true := by
    simp [strHasPrefix]
  have hne : ¬ ((':' :: tag) = []) := by simp
  have h1 : ¬ ((service0 :: others).length = 0) := by simp
  have h2 : ¬ ([container].length > 1) := by simp
  constructor
  · intro hlen
    unfold UpdateService
    simp only [Run.bind_eq, whenever, call, hs, htd, hc, hp, hne, Run.andThen_ok, Reply.err, CheckError,
      output, Run.pure_eq, indexM, h1, h2, index?, List.get?, List.length_cons, Println, emit, osExit,
      hlen, reduceCtorEq, if_false, if_true, List.length_nil, List.length_singleton]
    rfl
  · intro hlen
    obtain ⟨repository, segments, hsp⟩ := strSplit_cases ':' container.Image
    have hlen2 : ¬ ((repository :: segments).length > 2) := by rw [← hsp]; exact hlen
    refine ⟨repository, segments,
      (UpdateService aws clusterName serviceName (':' :: tag)).trace.drop 7, hsp, ?_, ?_⟩
    · unfold UpdateService
      simp only [Run.bind_eq, whenever, call, hs, htd, hc, hp, hne, Run.andThen_ok, Reply.err, CheckError,
        output, Run.pure_eq, indexM, h1, h2, index?, List.get?, Println, emit, osExit,
        hlen2, reduceCtorEq, if_false, if_true, hsp, setImage0]
      rfl
    · intro registered updated hreg hupd
      unfold UpdateService
      simp only [Run.bind_eq, whenever, call, hs, htd, hc, hp, hne, Run.andThen_ok, Reply.err, CheckError,
        output, Run.pure_eq, indexM, h1, h2, index?, List.get?, Println, emit, osExit,
        hlen2, reduceCtorEq, if_false, if_true, hsp, setImage0, hreg, hupd]

/-- C5, the examples of the specification: current image `repo/img:old` with input
`:new` registers `repo/img:new`; a current image with two colons is fatal. -/
theorem UpdateService_image_witness :
    Event.call (.RegisterTaskDefinition "fam".toList [containerOf "repo/img:new".toList] [])
      ∈ (UpdateService
          (awsFor [serviceOn "web".toList "td/fam:1".toList [] []] []
            (definitionOf "fam".toList [containerOf "repo/img:old".toList]) [])
          "cluster".toList "web".toList ":new".toList).trace ∧
    (UpdateService
        (awsFor [serviceOn "web".toList "td/fam:1".toList [] []] []
          (definitionOf "fam".toList [containerOf "host:5000/img:old".toList]) [])
        "cluster".toList "web".toList ":new".toList).outcome = .exit 1 := by
  constructor
  · obtain ⟨repository, segments, after, hsp, htrace, _⟩ :=
      (UpdateService_image
        (awsFor [serviceOn "web".toList "td/fam:1".toList [] []] []
          (definitionOf "fam".toList [containerOf "repo/img:old".toList]) [])
        "cluster".toList "web".toList "new".toList
        (serviceOn "web".toList "td/fam:1".toList [] []) []
        (definitionOf "fam".toList [containerOf "repo/img:old".toList])
        (containerOf "repo/img:old".toList) (by rfl) (by rfl) (by rfl)).2 (by decide)
    have hsplit : strSplit ':' (containerOf "repo/img:old".toList).Image
        = ["repo/img".toList, "old".toList] := by decide
    rw [hsplit] at hsp
    injection hsp with hrepo _
    have htrace2 : (UpdateService
          (awsFor [serviceOn "web".toList "td/fam:1".toList [] []] []
            (definitionOf "fam".toList [containerOf "repo/img:old".toList]) [])
          "cluster".toList "web".toList ":new".toList).trace = _ := htrace
    rw [htrace2, ← hrepo]
    refine List.mem_append_left _ ?_
    decide
  · have h := (UpdateService_image
        (awsFor [serviceOn "web".toList "td/fam:1".toList [] []] []
          (definitionOf "fam".toList [containerOf "host:5000/img:old".toList]) [])
        "cluster".toList "web".toList "new".toList
        (serviceOn "web".toList "td/fam:1".toList [] []) []
        (definitionOf "fam".toList [containerOf "host:5000/img:old".toList])
        (containerOf "host:5000/img:old".toList) (by rfl) (by rfl) (by rfl)).1 (by decide)
    exact congrArg Run.outcome h

/-- C6. `CreateTask` / `makeTaskDefinition`: whenever the descriptor file is read and
decoded and the decoded descriptor declares more than one container definition,
`makeTaskDefinition` exits with status 1, and so does `CreateTask`, having printed
its opening line and the rejection and having sent no request at all: in particular
no `RegisterTaskDefinition` request is issued. -/
theorem CreateTask_rejects_many (aws : Aws) (host : Host) (taskFile bytes : GoString)
    (taskJSON : TaskDefn)
    (hread : host.ReadFile taskFile = .ok bytes)
    (hparse : host.Unmarshal bytes = .ok taskJSON)
    (hmany : taskJSON.ContainerDefinitions.length > 1) :
    (makeTaskDefinition host taskFile).outcome = .exit 1 ∧
    CreateTask aws host taskFile
      = ⟨[.out "Registering Task Definition...\n\n".toList,
          .out (Sprintln ["Right now I only support a single ContainerDefinition, sorry. Please edit and try again.".toList])],
         .exit 1⟩ ∧
    ∀ request : Request, Event.call request ∉ (CreateTask aws host taskFile).trace := by
  have hmk : makeTaskDefinition host taskFile
      = ⟨[.out (Sprintln ["Right now I only support a single ContainerDefinition, sorry. Please edit and try again.".toList])],
         .exit 1⟩ := by
    unfold makeTaskDefinition
    simp only [Run.bind_eq, whenever, hread, hparse, hmany, Run.andThen_ok, Reply.err, CheckError, output,
      Run.pure_eq, Println, emit, osExit, if_true]
    rfl
  have hrun : CreateTask aws host taskFile
      = ⟨[.out "Registering Task Definition...\n\n".toList,
          .out (Sprintln ["Right now I only support a single ContainerDefinition, sorry. Please edit and try again.".toList])],
         .exit 1⟩ := by
    unfold CreateTask
    simp only [Run.bind_eq, hmk, emit, Run.andThen_ok, Run.andThen_exit]
    rfl
  refine ⟨by rw [hmk], hrun, ?_⟩
  intro request hmem
  rw [hrun] at hmem
  simp only [List.mem_cons, List.mem_singleton, List.not_mem_nil, or_false, reduceCtorEq,
    or_self] at hmem

/-- C6, the example of the specification: a descriptor file declaring two container
definitions is rejected and nothing is sent. -/
theorem CreateTask_rejects_many_witness :
    (makeTaskDefinition
        (hostWith "descriptor".toList
          { ContainerDefinitions := [descriptorContainer "a".toList "img:1".toList,
              descriptorContainer "b".toList "img:2".toList],
            Family := "fam".toList })
        "task.json".toList).outcome = .exit 1 ∧
    CreateTask silentAws
        (hostWith "descriptor".toList
          { ContainerDefinitions := [descriptorContainer "a".toList "img:1".toList,
              descriptorContainer "b".toList "img:2".toList],
            Family := "fam".toList })
        "task.json".toList
      = ⟨[.out "Registering Task Definition...\n\n".toList,
          .out (Sprintln ["Right now I only support a single ContainerDefinition, sorry. Please edit and try again.".toList])],
         .exit 1⟩ ∧
    ∀ request : Request, Event.call request ∉
      (CreateTask silentAws
        (hostWith "descriptor".toList
          { ContainerDefinitions := [descriptorContainer "a".toList "img:1".toList,
              descriptorContainer "b".toList "img:2".toList],
            Family := "fam".toList })
        "task.json".toList).trace :=
  CreateTask_rejects_many silentAws
    (hostWith "descriptor".toList
      { ContainerDefinitions := [descriptorContainer "a".toList "img:1".toList,
          descriptorContainer "b".toList "img:2".toList],
        Family := "fam".toList })
    "task.json".toList "descriptor".toList
    { ContainerDefinitions := [descriptorContainer "a".toList "img:1".toList,
        descriptorContainer "b".toList "img:2".toList],
      Family := "fam".toList }
    (by rfl) (by rfl) (by decide)

/-- C7 fails on the code. With an event count of 2 and a service that has three
events, the event listing announces "most recent 2" and then prints all three
events, not the first two: the bound is replaced by the number of events whenever
there are fewer than ten of them. The same holds inside `PrintServices`, where the
third event is printed. With ten events and a count of 11 the listing indexes past
the end and panics. -/
theorem PrintServices_events_overrun :
    printEvents silentAws "cluster".toList threeEvents 2
      = ⟨[.out "  - Events (most recent 2):\n".toList,
          .out "    At t3: third\n".toList,
          .out "    At t2: second\n".toList,
          .out "    At t1: first\n".toList], .ok 3⟩ ∧
    Event.out "    At t1: first\n".toList ∈
      (PrintServices (awsFor [serviceOn "web".toList "td/fam:1".toList [] threeEvents] []
          (definitionOf "fam".toList []) []) plainHost
        "cluster".toList "web".toList false 2).trace ∧
    (printEvents silentAws "cluster".toList
        (List.replicate 10 { CreatedAt := "t".toList, Message := "m".toList }) 11).outcome
      = .panic := by
  refine ⟨by decide, by decide, by decide⟩

/-- C8 fails as stated: the message `"(task x"` contains the marker (at offset 0),
yet no task identifier is extracted from it; the slice bounds cross, the run panics
right after printing the event line and no `DescribeTasks` request is sent. -/
theorem printEvent_short_message :
    strIndex "(task x".toList "(task ".toList = 0 ∧
    printEvent silentAws "cluster".toList
        [{ CreatedAt := "t".toList, Message := "(task x".toList }] 0
      = ⟨[.out "    At t: (task x\n".toList], .panic⟩ := by
  refine ⟨by decide, by decide⟩

/-- C8, as amended. `PrintServices`, task-identifier extraction: for every event
message in which the first occurrence of the marker `"(task "` is followed by at
least two more bytes, the task identifier is the text that starts right after that
occurrence and ends just before the final two bytes of the message, and it is the
identifier sent in the `DescribeTasks` request that follows the event line. -/
theorem printEvent_taskID (aws : Aws) (clusterName : GoString) (events : List ServiceEvent)
    (eventCount : Nat) (event : ServiceEvent) (before taskID : GoString) (c1 c2 : Char)
    (hev : index? events eventCount = some event)
    (hmsg : event.Message = before ++ "(task ".toList ++ taskID ++ [c1, c2])
    (hfirst : ∀ p q : GoString, event.Message = p ++ "(task ".toList ++ q →
      before.length ≤ p.length) :
    ∃ after : List Event,
      (printEvent aws clusterName events eventCount).trace
        = [.out ("    At ".toList ++ event.CreatedAt ++ ": ".toList ++ event.Message ++ ['\n']),
           .call (.DescribeTasks clusterName [taskID])] ++ after := by
  have hpos : strIndex event.Message "(task ".toList = (before.length : Int) :=
    strIndex_first _ _ before (taskID ++ [c1, c2]) (by rw [hmsg, List.append_assoc]) hfirst
  have hne : ¬ ((before.length : Int) = -1) := by omega
  have hslice : slice? event.Message ((before.length : Int) + 6)
      ((event.Message.length : Int) - 2) = some taskID := by
    have h := slice?_middle (before ++ "(task ".toList) taskID [c1, c2]
    rw [← hmsg] at h
    have e1 : (((before ++ "(task ".toList).length : Nat) : Int) = (before.length : Int) + 6 := by
      rw [List.length_append]; rfl
    have e2 : ((([c1, c2] : GoString).length : Nat) : Int) = 2 := rfl
    rw [e1, e2] at h
    exact h
  refine ⟨(printEvent aws clusterName events eventCount).trace.drop 2, ?_⟩
  unfold printEvent
  simp only [Run.bind_eq, whenever, sliceM, indexM, hev, Run.pure_eq, Run.andThen_ok, emit, hpos,
    hne, ne_eq, not_false_eq_true, if_true, hslice, call]
  rfl

/-- C8, the example of the specification: the message
`"(service web) has started 1 tasks: (task abc-123)."` gives the identifier
`abc-123`. -/
theorem printEvent_taskID_witness :
    ∃ after : List Event,
      (printEvent silentAws "cluster".toList
          [{ CreatedAt := "t".toList,
             Message := "(service web) has started 1 tasks: (task abc-123).".toList }] 0).trace
        = [.out ("    At ".toList ++ "t".toList ++ ": ".toList
              ++ "(service web) has started 1 tasks: (task abc-123).".toList ++ ['\n']),
           .call (.DescribeTasks "cluster".toList ["abc-123".toList])] ++ after :=
  printEvent_taskID silentAws "cluster".toList
    [{ CreatedAt := "t".toList,
       Message := "(service web) has started 1 tasks: (task abc-123).".toList }] 0
    { CreatedAt := "t".toList,
      Message := "(service web) has started 1 tasks: (task abc-123).".toList }
    "(service web) has started 1 tasks: ".toList "abc-123".toList ')' '.'
    (by rfl) (by decide)
    (fun p q h => by
      have hle := (strIndex_le "(task ".toList _ p q h).2
      have hidx : strIndex "(service web) has started 1 tasks: (task abc-123).".toList
          "(task ".toList = 35 := by decide
      have hlen : ("(service web) has started 1 tasks: ".toList).length = 35 := by decide
      rw [hlen]
      have hle2 : (35 : Int) ≤ (p.length : Int) := by
        rw [← hidx]; exact hle
      exact_mod_cast hle2)

/-- C9. `PrintServices` with a non-empty requested service name, whatever list of
services the cluster returns: the "not found" line is printed if and only if no
listed service has exactly that name; and in that case no service is printed: the
run consists of the two listing requests, the count line, the "No services to
describe." line when the list is empty, and the "not found" line, and it ends
normally with no load-balancer name collected. -/
theorem PrintServices_not_found (aws : Aws) (host : Host) (clusterName serviceName : GoString)
    (verboseFlag : Bool) (eventsFlag : Int) (arns : List GoString) (services : List Service)
    (hname : serviceName ≠ [])
    (hl : aws.ListServices clusterName = .ok arns)
    (hd : aws.DescribeServices clusterName arns = .ok services) :
    (Event.out (Sprintln ["  Service".toList, serviceName, "not found.".toList])
        ∈ (PrintServices aws host clusterName serviceName verboseFlag eventsFlag).trace
      ↔ ∀ s ∈ services, s.ServiceName ≠ serviceName) ∧
    ((∀ s ∈ services, s.ServiceName ≠ serviceName) →
      PrintServices aws host clusterName serviceName verboseFlag eventsFlag
        = ⟨[.call (.ListServices clusterName),
            .out (Sprintln [fmtNat arns.length, "Services in cluster".toList, clusterName]),
            .call (.DescribeServices clusterName arns)]
            ++ (if services.length = 0
                then [.out (Sprintln ["  No services to describe.".toList])] else [])
            ++ [.out (Sprintln ["  Service".toList, serviceName, "not found.".toList])],
           .ok []⟩) := by
  have hskip : (∀ s ∈ services, s.ServiceName ≠ serviceName) →
      PrintServices aws host clusterName serviceName verboseFlag eventsFlag
        = ⟨[.call (.ListServices clusterName),
            .out (Sprintln [fmtNat arns.length, "Services in cluster".toList, clusterName]),
            .call (.DescribeServices clusterName arns)]
            ++ (if services.length = 0
                then [.out (Sprintln ["  No services to describe.".toList])] else [])
            ++ [.out (Sprintln ["  Service".toList, serviceName, "not found.".toList])],
           .ok []⟩ := by
    intro hne
    rw [PrintServices_eq aws host clusterName serviceName verboseFlag eventsFlag arns services
      hl hd, servicesLoop_skip aws host clusterName serviceName verboseFlag eventsFlag services
      hname hne]
    simp only [Run.bind_eq, Run.andThen_ok, servicesClose, whenever, hname, ne_eq,
      not_false_eq_true, and_self, if_true, emit, Run.pure_eq, List.append_nil, notFoundLine,
      List.append_assoc]
  refine ⟨⟨?_, ?_⟩, hskip⟩
  · intro hmem s hs hn
    rw [PrintServices_eq aws host clusterName serviceName verboseFlag eventsFlag arns services
      hl hd] at hmem
    have hne : services ≠ [] := by
      intro h; rw [h] at hs; simp at hs
    have hav := servicesLoop_avoids aws host clusterName serviceName verboseFlag eventsFlag
      services hne
    have hfound := servicesLoop_found aws host clusterName serviceName verboseFlag eventsFlag
      services s hs hn
    have hline : Event.out (Sprintln ["  Service".toList, serviceName, "not found.".toList])
        = .out (notFoundLine serviceName) := rfl
    rw [hline] at hmem
    have htail : ∀ e ∈ (servicesLoop aws host clusterName serviceName verboseFlag eventsFlag
        services >>= servicesClose serviceName).trace, avoids "  Service ".toList e := by
      cases hL : servicesLoop aws host clusterName serviceName verboseFlag eventsFlag services with
      | mk t o =>
        rw [hL] at hav hfound
        cases o with
        | ok v1 =>
          have hv1 : v1.foundService = true := hfound v1 rfl
          intro e he
          simp only [Run.bind_eq, Run.andThen_ok, servicesClose, whenever, hv1, ne_eq,
            Bool.true_eq_false, and_false, if_false, Run.pure_eq, List.append_nil,
            reduceCtorEq] at he
          exact hav e he
        | exit c => exact hav
        | panic => exact hav
    simp only [List.mem_append, List.mem_cons, List.mem_singleton, List.not_mem_nil,
      or_false] at hmem
    rcases hmem with (h | h | h) | h
    · cases h
    · exact countLine_ne_notFound _ _ _ h.symm
    · cases h
    · exact htail _ h _ (by rw [notFoundLine_opens])
  · intro hne
    rw [hskip hne]
    simp

/-- C9, at a concrete cluster: asking for `api` where only `web` exists prints
"not found" and no service. -/
theorem PrintServices_not_found_witness :
    PrintServices
        (awsFor [serviceOn "web".toList "td/fam:1".toList [] []] []
          (definitionOf "fam".toList []) [])
        plainHost "cluster".toList "api".toList false 0
      = ⟨[.call (.ListServices "cluster".toList),
          .out "1 Services in cluster cluster\n".toList,
          .call (.DescribeServices "cluster".toList ["web".toList]),
          .out "  Service api not found.\n".toList],
         .ok []⟩ :=
  (PrintServices_not_found
    (awsFor [serviceOn "web".toList "td/fam:1".toList [] []] []
      (definitionOf "fam".toList []) [])
    plainHost "cluster".toList "api".toList false 0 ["web".toList]
    [serviceOn "web".toList "td/fam:1".toList [] []] (by decide) (by rfl) (by rfl)).2
    (by decide)

/-- C10 fails as stated: for the listing `["demo:8"]`, whose only identifier has the
revision key `"unknown"` (no `/`), the family `unknown` occurs in the listing but
nothing is printed; indexing the second segment of the revision key panics right
after the listing request. -/
theorem PrintTasks_no_colon :
    familyOf "demo:8".toList = "unknown".toList ∧
    PrintTasks (awsListing ["demo:8".toList]) plainHost [] []
      = ⟨[.call (.ListTaskDefinitions none)], .panic⟩ := by
  refine ⟨by decide, by decide⟩

/-- C10, as amended. `PrintTasks` with no family filter, for every listing in which
the revision key of every identifier contains a `:` (and with `range` visiting every
entry of the map once): after the listing request and the heading, one line is
printed per family; no family is printed twice; the families printed are exactly the
families that occur in the listing; and each is shown with the revision of the last
identifier of that family in the listing (positional, not the greatest number). -/
theorem PrintTasks_families (aws : Aws) (host : Host) (taskRevision : GoString) (listing : List GoString)
    (hl : aws.ListTaskDefinitions none = .ok listing)
    (hwf : ∀ id ∈ listing, ':' ∈ getRevisionFromTaskDefinition id)
    (hperm : ∀ m, (host.rangeOrder m).Perm m) :
    ∃ printed : List (GoString × GoString),
      PrintTasks aws host [] taskRevision
        = ⟨[.call (.ListTaskDefinitions none),
            .out (Sprintln ["Task Definition families:".toList])]
            ++ printed.map (fun entry => .out ("  ".toList ++ entry.1
                ++ " (latest revision: ".toList ++ entry.2 ++ ")\n".toList)),
           .ok ()⟩ ∧
      (printed.map Prod.fst).Nodup ∧
      (∀ family, family ∈ printed.map Prod.fst ↔ ∃ id ∈ listing, familyOf id = family) ∧
      (∀ family revision, (family, revision) ∈ printed ↔
        ∃ id, (listing.filter fun id => decide (familyOf id = family)).getLast? = some id ∧
          revisionOf id = revision) := by
  have hmem : ∀ family revision,
      (family, revision) ∈ host.rangeOrder (familiesOf listing []) ↔
        ∃ id, lastOfFamily listing family = some id ∧ revisionOf id = revision := by
    intro family revision
    rw [(hperm _).mem_iff, familiesOf_mem listing [] (by simp)]
    simp
  refine ⟨host.rangeOrder (familiesOf listing []), ?_, ?_, ?_, hmem⟩
  · unfold PrintTasks
    simp only [Run.bind_eq, call, hl, Run.andThen_ok, Reply.err, CheckError, output, Run.pure_eq,
      forFoldIdx_printTasksStep aws host taskRevision _ _ listing 0 [] hwf, whenever, if_true,
      Println, forEach_emit, ne_eq, not_true_eq_false, if_false, List.nil_append,
      List.append_nil, List.singleton_append, List.cons_append]
    simp only [emit, Run.andThen_ok, List.nil_append, List.append_nil, List.singleton_append,
      List.cons_append]
  · exact ((hperm _).map Prod.fst).nodup_iff.mpr (familiesOf_nodup listing [] (by simp))
  · intro family
    rw [← lastOfFamily_some_iff]
    constructor
    · intro h
      rcases List.mem_map.mp h with ⟨⟨f, r⟩, he, hf⟩
      obtain ⟨id, h1, _⟩ := (hmem f r).mp he
      simp only at hf
      rw [← hf]
      exact ⟨id, h1⟩
    · rintro ⟨id, h1⟩
      exact List.mem_map.mpr ⟨(family, revisionOf id), (hmem _ _).mpr ⟨id, h1, rfl⟩, rfl⟩

/-- C10, at a concrete listing: `web:7`, `api:3`, `web:2` in this order print `web`
with revision 2, the last one listed, and `api` with revision 3. -/
theorem PrintTasks_families_witness :
    (∃ printed : List (GoString × GoString),
      PrintTasks
          (awsListing ["td/web:7".toList, "td/api:3".toList, "td/web:2".toList])
          plainHost [] []
        = ⟨[.call (.ListTaskDefinitions none),
            .out (Sprintln ["Task Definition families:".toList])]
            ++ printed.map (fun entry => .out ("  ".toList ++ entry.1
                ++ " (latest revision: ".toList ++ entry.2 ++ ")\n".toList)),
           .ok ()⟩ ∧
      (printed.map Prod.fst).Nodup ∧
      (∀ family, family ∈ printed.map Prod.fst ↔
        ∃ id ∈ ["td/web:7".toList, "td/api:3".toList, "td/web:2".toList],
          familyOf id = family) ∧
      (∀ family revision, (family, revision) ∈ printed ↔
        ∃ id, (["td/web:7".toList, "td/api:3".toList, "td/web:2".toList].filter
            fun id => decide (familyOf id = family)).getLast? = some id ∧
          revisionOf id = revision)) ∧
    PrintTasks
        (awsListing ["td/web:7".toList, "td/api:3".toList, "td/web:2".toList])
        plainHost [] []
      = ⟨[.call (.ListTaskDefinitions none),
          .out "Task Definition families:\n".toList,
          .out "  web (latest revision: 2)\n".toList,
          .out "  api (latest revision: 3)\n".toList],
         .ok ()⟩ :=
  ⟨PrintTasks_families
      (awsListing ["td/web:7".toList, "td/api:3".toList, "td/web:2".toList])
      plainHost [] ["td/web:7".toList, "td/api:3".toList, "td/web:2".toList]
      (by rfl) (by decide) (fun m => List.Perm.refl m),
   by decide⟩

/-- C11. `PrintTasks` with a non-empty family filter, for every listing that the
remote service returns for the family and with every selected definition answered
when it is fetched: the run ends normally and consists of the listing request
followed, for each selected definition in listing order, by its description: the
`DescribeTaskDefinition` request, the line naming the definition, the line naming its
family, and for each of its container definitions the heading, the image, the CPU and
memory figures, the port mappings, the command and entry point when present and the
environment when present. The selected definitions are the last element of the
listing for the selector `latest` (none when the listing is empty), every element
for the empty selector, and for any other selector exactly the elements whose
revision key is the family, a colon and the selector. The requests sent are the
listing request and one `DescribeTaskDefinition` per selected definition. -/
theorem PrintTasks_selected (aws : Aws) (host : Host) (taskFamily taskRevision : GoString)
    (listing : List GoString) (definitions : GoString → TaskDefinition)
    (hF : taskFamily ≠ [])
    (hl : aws.ListTaskDefinitions (some taskFamily) = .ok listing)
    (hd : ∀ id ∈ selectedDefinitions taskFamily taskRevision listing,
      aws.DescribeTaskDefinition id = .ok (definitions id)) :
    PrintTasks aws host taskFamily taskRevision
      = ⟨.call (.ListTaskDefinitions (some taskFamily)) ::
          (selectedDefinitions taskFamily taskRevision listing).flatMap (fun id =>
            [.call (.DescribeTaskDefinition id),
             .out (Sprintln ["  - Task Definition:".toList, id]),
             .out (Sprintln ["    - Family:".toList, (definitions id).Family])]
            ++ (definitions id).ContainerDefinitions.flatMap (fun cd =>
              [.out (Sprintln ["    - Container Definition:".toList]),
               .out (Sprintln ["      - Image:".toList, cd.Image]),
               .out (Sprintln ["      - CPU:".toList, fmtInt cd.Cpu]),
               .out (Sprintln ["      - Memory:".toList, fmtInt cd.Memory])]
              ++ cd.PortMappings.map (fun pm => .out (Sprintln ["      - Container Port".toList,
                    fmtInt pm.ContainerPort, ": Host Port".toList, fmtInt pm.HostPort]))
              ++ (if cd.Command.length > 0
                  then [.out ("      - Command: ".toList ++ host.fmtPointers cd.Command
                    ++ ['\n'])]
                  else [])
              ++ (if cd.EntryPoint.length > 0
                  then [.out ("      - Entry Point: ".toList ++ host.fmtPointers cd.EntryPoint
                    ++ ['\n'])]
                  else [])
              ++ (if cd.Environment.length > 0
                  then .out (Sprintln ["      - Environment:".toList]) ::
                    cd.Environment.map (fun kv => .out (Sprintln ["       ".toList, kv.Name,
                      "=".toList, kv.Value]))
                  else []))),
         .ok ()⟩ ∧
    requestsOf (PrintTasks aws host taskFamily taskRevision).trace
      = .ListTaskDefinitions (some taskFamily) ::
          (selectedDefinitions taskFamily taskRevision listing).map .DescribeTaskDefinition := by
  have hrun := PrintTasks_selected_run aws host taskFamily taskRevision listing hF hl
    (fun id hid => ⟨definitions id, hd id hid⟩)
  refine ⟨?_, hrun.2⟩
  have hlines : (selectedDefinitions taskFamily taskRevision listing).flatMap
        (fun id => (PrintTaskDefinition aws host id true).trace)
      = (selectedDefinitions taskFamily taskRevision listing).flatMap (fun id =>
          [.call (.DescribeTaskDefinition id),
           .out (Sprintln ["  - Task Definition:".toList, id]),
           .out (Sprintln ["    - Family:".toList, (definitions id).Family])]
          ++ (definitions id).ContainerDefinitions.flatMap (containerDescription host)) :=
    flatMap_congr_mem _ _ _ (fun id hid =>
      congrArg Run.trace (PrintTaskDefinition_lines aws host id (definitions id) (hd id hid)))
  have hfinal := hrun.1
  rw [hlines] at hfinal
  exact hfinal

/-- C11, at a concrete listing of the family `web` with revisions 1, 2, 3, each
described with one container definition: `latest` describes `td/web:3` only, the
selector `2` describes `td/web:2` only, the empty selector describes all three, each
with every line of its description. -/
theorem PrintTasks_selected_witness :
    PrintTasks
        (awsDefinitions ["td/web:1".toList, "td/web:2".toList, "td/web:3".toList]
          (definitionOf "web".toList [fullContainer "repo/img:9".toList]))
        plainHost "web".toList "latest".toList
      = ⟨[.call (.ListTaskDefinitions (some "web".toList)),
          .call (.DescribeTaskDefinition "td/web:3".toList),
          .out "  - Task Definition: td/web:3\n".toList,
          .out "    - Family: web\n".toList,
          .out "    - Container Definition:\n".toList,
          .out "      - Image: repo/img:9\n".toList,
          .out "      - CPU: 10\n".toList,
          .out "      - Memory: 128\n".toList,
          .out "      - Container Port 80 : Host Port 8080\n".toList,
          .out "      - Command: []\n".toList,
          .out "      - Environment:\n".toList,
          .out "        MODE = prod\n".toList],
         .ok ()⟩ ∧
    PrintTasks
        (awsDefinitions ["td/web:1".toList, "td/web:2".toList, "td/web:3".toList]
          (definitionOf "web".toList [fullContainer "repo/img:9".toList]))
        plainHost "web".toList "2".toList
      = ⟨[.call (.ListTaskDefinitions (some "web".toList)),
          .call (.DescribeTaskDefinition "td/web:2".toList),
          .out "  - Task Definition: td/web:2\n".toList,
          .out "    - Family: web\n".toList,
          .out "    - Container Definition:\n".toList,
          .out "      - Image: repo/img:9\n".toList,
          .out "      - CPU: 10\n".toList,
          .out "      - Memory: 128\n".toList,
          .out "      - Container Port 80 : Host Port 8080\n".toList,
          .out "      - Command: []\n".toList,
          .out "      - Environment:\n".toList,
          .out "        MODE = prod\n".toList],
         .ok ()⟩ ∧
    PrintTasks
        (awsDefinitions ["td/web:1".toList, "td/web:2".toList, "td/web:3".toList]
          (definitionOf "web".toList [fullContainer "repo/img:9".toList]))
        plainHost "web".toList []
      = ⟨[.call (.ListTaskDefinitions (some "web".toList)),
          .call (.DescribeTaskDefinition "td/web:1".toList),
          .out "  - Task Definition: td/web:1\n".toList,
          .out "    - Family: web\n".toList,
          .out "    - Container Definition:\n".toList,
          .out "      - Image: repo/img:9\n".toList,
          .out "      - CPU: 10\n".toList,
          .out "      - Memory: 128\n".toList,
          .out "      - Container Port 80 : Host Port 8080\n".toList,
          .out "      - Command: []\n".toList,
          .out "      - Environment:\n".toList,
          .out "        MODE = prod\n".toList,
          .call (.DescribeTaskDefinition "td/web:2".toList),
          .out "  - Task Definition: td/web:2\n".toList,
          .out "    - Family: web\n".toList,
          .out "    - Container Definition:\n".toList,
          .out "      - Image: repo/img:9\n".toList,
          .out "      - CPU: 10\n".toList,
          .out "      - Memory: 128\n".toList,
          .out "      - Container Port 80 : Host Port 8080\n".toList,
          .out "      - Command: []\n".toList,
          .out "      - Environment:\n".toList,
          .out "        MODE = prod\n".toList,
          .call (.DescribeTaskDefinition "td/web:3".toList),
          .out "  - Task Definition: td/web:3\n".toList,
          .out "    - Family: web\n".toList,
          .out "    - Container Definition:\n".toList,
          .out "      - Image: repo/img:9\n".toList,
          .out "      - CPU: 10\n".toList,
          .out "      - Memory: 128\n".toList,
          .out "      - Container Port 80 : Host Port 8080\n".toList,
          .out "      - Command: []\n".toList,
          .out "      - Environment:\n".toList,
          .out "        MODE = prod\n".toList],
         .ok ()⟩ :=
  ⟨(PrintTasks_selected
      (awsDefinitions ["td/web:1".toList, "td/web:2".toList, "td/web:3".toList]
          (definitionOf "web".toList [fullContainer "repo/img:9".toList]))
      plainHost "web".toList "latest".toList
      ["td/web:1".toList, "td/web:2".toList, "td/web:3".toList]
      (fun _ => definitionOf "web".toList [fullContainer "repo/img:9".toList])
      (by decide) (by rfl) (fun _ _ => rfl)).1.trans (by decide),
   (PrintTasks_selected
      (awsDefinitions ["td/web:1".toList, "td/web:2".toList, "td/web:3".toList]
          (definitionOf "web".toList [fullContainer "repo/img:9".toList]))
      plainHost "web".toList "2".toList
      ["td/web:1".toList, "td/web:2".toList, "td/web:3".toList]
      (fun _ => definitionOf "web".toList [fullContainer "repo/img:9".toList])
      (by decide) (by rfl) (fun _ _ => rfl)).1.trans (by decide),
   (PrintTasks_selected
      (awsDefinitions ["td/web:1".toList, "td/web:2".toList, "td/web:3".toList]
          (definitionOf "web".toList [fullContainer "repo/img:9".toList]))
      plainHost "web".toList []
      ["td/web:1".toList, "td/web:2".toList, "td/web:3".toList]
      (fun _ => definitionOf "web".toList [fullContainer "repo/img:9".toList])
      (by decide) (by rfl) (fun _ _ => rfl)).1.trans (by decide)⟩

/-- C12 fails as stated: for a single running task on the revision of the service,
non-verbose mode returns no entry and verbose mode returns three entries for that one
task, one with its ARN, one with its task-definition reference and one with its
desired and last status; no single line carries the three. -/
theorem CheckServiceTasks_verbose_three :
    (CheckServiceTasks (awsWithTasks [taskOn "td/fam:5".toList "RUNNING".toList])
        "cluster".toList "web".toList false "td/fam:5".toList).outcome = .ok ([], 1) ∧
    (CheckServiceTasks (awsWithTasks [taskOn "td/fam:5".toList "RUNNING".toList])
        "cluster".toList "web".toList true "td/fam:5".toList).outcome
      = .ok (["  - Task arn:task\n".toList,
              "    Task Def: td/fam:5\n".toList,
              "    Desired status RUNNING - Last status RUNNING\n".toList], 1) := by
  refine ⟨by decide, by decide⟩

/-- C12, as amended. `CheckServiceTasks` in verbose mode: whatever tasks
`getServiceTasks` hands over, the returned list contains, in addition to the warnings
of non-verbose mode, exactly three entries per task (its ARN; its task-definition
reference; its desired and last status), placed in encounter order before the
mismatch warning of that task if it has one. The second part is the list of
non-verbose mode, for comparison. -/
theorem CheckServiceTasks_verbose (aws : Aws) (clusterName serviceName ref : GoString) (tasks : List Task)
    (h : (getServiceTasks aws clusterName serviceName).outcome = .ok tasks) :
    (CheckServiceTasks aws clusterName serviceName true ref).outcome
      = .ok (tasks.flatMap (fun t =>
                [Sprintln ["  - Task".toList, t.TaskArn],
                 Sprintln ["    Task Def:".toList, t.TaskDefinitionArn],
                 Sprintln ["    Desired status".toList, t.DesiredStatus,
                   "- Last status".toList, t.LastStatus]]
                ++ (if getRevisionFromTaskDefinition t.TaskDefinitionArn
                      ≠ getRevisionFromTaskDefinition ref
                    then [Sprintln ["WARNING: task uses".toList,
                      getRevisionFromTaskDefinition t.TaskDefinitionArn,
                      "but service definition is".toList, getRevisionFromTaskDefinition ref]]
                    else []))
              ++ (if runningCount tasks = 0 then [noRunningWarning] else []),
             runningCount tasks) ∧
    (CheckServiceTasks aws clusterName serviceName false ref).outcome
      = .ok (tasks.flatMap (fun t =>
                (if getRevisionFromTaskDefinition t.TaskDefinitionArn
                      ≠ getRevisionFromTaskDefinition ref
                    then [Sprintln ["WARNING: task uses".toList,
                      getRevisionFromTaskDefinition t.TaskDefinitionArn,
                      "but service definition is".toList, getRevisionFromTaskDefinition ref]]
                    else []))
              ++ (if runningCount tasks = 0 then [noRunningWarning] else []),
             runningCount tasks) := by
  constructor
  · rw [CheckServiceTasks_outcome aws clusterName serviceName true ref tasks h]
    have hfun : taskLines true (getRevisionFromTaskDefinition ref)
        = fun t => [Sprintln ["  - Task".toList, t.TaskArn],
                 Sprintln ["    Task Def:".toList, t.TaskDefinitionArn],
                 Sprintln ["    Desired status".toList, t.DesiredStatus,
                   "- Last status".toList, t.LastStatus]]
                ++ (if getRevisionFromTaskDefinition t.TaskDefinitionArn
                      ≠ getRevisionFromTaskDefinition ref
                    then [Sprintln ["WARNING: task uses".toList,
                      getRevisionFromTaskDefinition t.TaskDefinitionArn,
                      "but service definition is".toList, getRevisionFromTaskDefinition ref]]
                    else []) := by
      funext t
      rw [taskLines_true, mismatchWarnings_singleton]
      rfl
    rw [hfun]
  · rw [CheckServiceTasks_outcome aws clusterName serviceName false ref tasks h]
    have hfun : taskLines false (getRevisionFromTaskDefinition ref)
        = fun t => (if getRevisionFromTaskDefinition t.TaskDefinitionArn
                      ≠ getRevisionFromTaskDefinition ref
                    then [Sprintln ["WARNING: task uses".toList,
                      getRevisionFromTaskDefinition t.TaskDefinitionArn,
                      "but service definition is".toList, getRevisionFromTaskDefinition ref]]
                    else []) := by
      funext t
      rw [← mismatchWarnings_singleton]
      rfl
    rw [hfun]

/-- C12, at a concrete input: two tasks, the second on another revision. -/
theorem CheckServiceTasks_verbose_witness :
    (CheckServiceTasks
        (awsWithTasks [taskOn "td/fam:5".toList "RUNNING".toList,
          taskOn "td/fam:4".toList "RUNNING".toList])
        "cluster".toList "web".toList true "td/fam:5".toList).outcome
      = .ok (["  - Task arn:task\n".toList,
              "    Task Def: td/fam:5\n".toList,
              "    Desired status RUNNING - Last status RUNNING\n".toList,
              "  - Task arn:task\n".toList,
              "    Task Def: td/fam:4\n".toList,
              "    Desired status RUNNING - Last status RUNNING\n".toList,
              "WARNING: task uses fam:4 but service definition is fam:5\n".toList], 2) :=
  (CheckServiceTasks_verbose
    (awsWithTasks [taskOn "td/fam:5".toList "RUNNING".toList,
      taskOn "td/fam:4".toList "RUNNING".toList])
    "cluster".toList "web".toList "td/fam:5".toList
    [taskOn "td/fam:5".toList "RUNNING".toList, taskOn "td/fam:4".toList "RUNNING".toList]
    (by rfl)).1.trans (by decide)

/-- C13 fails on the code. In `UpdateService` the error of the request that fetches
the current task definition is never checked: when that request fails, nothing is
reported and the run does not exit with status 1; it goes on to read the answer and
panics. In the same function a failing `DescribeServices` is reported and ends the
run with status 1, and so does a failing `DescribeTaskDefinition` in
`PrintTaskDefinition`. -/
theorem UpdateService_unchecked_error :
    UpdateService (awsDefinitionFails [serviceOn "web".toList "td/fam:1".toList [] []])
        "cluster".toList "web".toList "repo/img:new".toList
      = ⟨[.out "Updating service web\n".toList,
          .call (.DescribeServices "cluster".toList ["web".toList]),
          .call (.DescribeTaskDefinition "td/fam:1".toList)],
         .panic⟩ ∧
    UpdateService silentAws "cluster".toList "web".toList "repo/img:new".toList
      = ⟨[.out "Updating service web\n".toList,
          .call (.DescribeServices "cluster".toList ["web".toList]),
          .out "Error fetching service data for service web ==> unavailable\n".toList],
         .exit 1⟩ ∧
    PrintTaskDefinition (awsDefinitionFails []) plainHost "td/fam:1".toList false
      = ⟨[.call (.DescribeTaskDefinition "td/fam:1".toList),
          .out "Error fetching Task Definition for td/fam:1 ==> AccessDeniedException\n".toList],
         .exit 1⟩ := by
  refine ⟨by decide, by decide, by decide⟩

/-- C14 fails as stated: with the credential flag `env` and `ECSCREDENTIAL=prod` the
profile name is `default`, not `prod`; the environment variable is read only when the
flag is empty. -/
theorem credProfile_env_flag :
    credProfile "env".toList "prod".toList = "default".toList ∧
    credProfile "env".toList "prod".toList ≠ "prod".toList := by
  refine ⟨by decide, by decide⟩

/-- C14, as amended. Credential profile resolution in `main`, for every value of the
credential flag and of the environment variable `ECSCREDENTIAL`: the profile name is
the flag when the flag is non-empty and is not `env`; it is the environment variable
when the flag is empty and the variable is non-empty; it is `default` when both are
empty, and also when the flag is `env`, whatever the variable. -/
theorem credProfile_spec (credFlag ecsCredential : GoString) :
    (credFlag ≠ [] → credFlag ≠ "env".toList → credProfile credFlag ecsCredential = credFlag) ∧
    (credFlag = [] → ecsCredential ≠ [] → credProfile credFlag ecsCredential = ecsCredential) ∧
    (credFlag = [] → ecsCredential = [] →
      credProfile credFlag ecsCredential = "default".toList) ∧
    (credFlag = "env".toList → credProfile credFlag ecsCredential = "default".toList) := by
  unfold credProfile
  refine ⟨?_, ?_, ?_, ?_⟩
  · intro h1 h2
    simp only [h1, h2, if_false, ne_eq, not_false_eq_true, if_true]
  · intro h1 h2
    simp only [h1, h2, if_true, ne_eq, not_false_eq_true]
  · intro h1 h2
    simp only [h1, h2, if_true, ne_eq, not_true_eq_false, if_false]
  · intro h1
    have hne : ¬ ("env".toList = ([] : GoString)) := by decide
    rw [h1]
    simp only [hne, if_false, ne_eq, not_true_eq_false]

/-- C14, at concrete values of the flag and the variable. -/
theorem credProfile_spec_witness :
    credProfile "staging".toList "prod".toList = "staging".toList ∧
    credProfile [] "prod".toList = "prod".toList ∧
    credProfile [] [] = "default".toList ∧
    credProfile "env".toList "prod".toList = "default".toList :=
  ⟨(credProfile_spec "staging".toList "prod".toList).1 (by decide) (by decide),
   (credProfile_spec [] "prod".toList).2.1 rfl (by decide),
   (credProfile_spec [] []).2.2.1 rfl rfl,
   (credProfile_spec "env".toList "prod".toList).2.2.2 rfl⟩

/-- C15. `CheckServiceTasks`, in either mode: when neither the service reference nor
the task-definition reference of any task contains `/`, the returned list holds no
revision-mismatch warning (for whatever two revisions), even when the references
differ as strings; in non-verbose mode the list is empty or is the "No tasks in
RUNNING state" warning alone. -/
theorem CheckServiceTasks_unknown (aws : Aws) (clusterName serviceName ref : GoString) (verboseFlag : Bool)
    (tasks : List Task)
    (h : (getServiceTasks aws clusterName serviceName).outcome = .ok tasks)
    (href : '/' ∉ ref) (ht : ∀ t ∈ tasks, '/' ∉ t.TaskDefinitionArn) :
    ∃ warnings : List GoString,
      (CheckServiceTasks aws clusterName serviceName verboseFlag ref).outcome
        = .ok (warnings, runningCount tasks) ∧
      (∀ a b : GoString,
        Sprintln ["WARNING: task uses".toList, a, "but service definition is".toList, b]
          ∉ warnings) ∧
      (verboseFlag = false →
        warnings = if runningCount tasks = 0 then [noRunningWarning] else []) := by
  have hflat := taskLines_unknown verboseFlag ref tasks href ht
  refine ⟨_, CheckServiceTasks_outcome aws clusterName serviceName verboseFlag ref tasks h,
    ?_, ?_⟩
  · intro a b hmem
    rw [hflat] at hmem
    rcases List.mem_append.mp hmem with hm | hm
    · rcases List.mem_flatMap.mp hm with ⟨t, _, hmt⟩
      cases verboseFlag with
      | false => simp only [Bool.false_eq_true, if_false, List.not_mem_nil] at hmt
      | true =>
        simp only [if_true, verboseEntries, List.mem_cons, List.mem_singleton,
          List.not_mem_nil, or_false] at hmt
        rcases hmt with e | e | e
        · exact Sprintln_ne_of_clash _ _ _ _ (by decide) e
        · exact Sprintln_ne_of_clash _ _ _ _ (by decide) e
        · exact Sprintln_ne_of_clash _ _ _ _ (by decide) e
    · by_cases h0 : runningCount tasks = 0
      · simp only [h0, if_true, List.mem_singleton] at hm
        exact Sprintln_ne_of_clash _ _ _ _ (by decide) hm
      · simp only [h0, if_false, List.not_mem_nil] at hm
  · intro hv
    rw [hflat, hv]
    simp only [Bool.false_eq_true, if_false, flatMap_const_nil, List.nil_append]

/-- C15, the example of the claim: the service reference `fam:5` and a task on
`fam:4` compare equal, both revision keys being `unknown`. -/
theorem CheckServiceTasks_unknown_witness :
    (CheckServiceTasks (awsWithTasks [taskOn "fam:4".toList "RUNNING".toList])
        "cluster".toList "web".toList false "fam:5".toList).outcome = .ok ([], 1) ∧
    ∃ warnings : List GoString,
      (CheckServiceTasks (awsWithTasks [taskOn "fam:4".toList "RUNNING".toList])
          "cluster".toList "web".toList true "fam:5".toList).outcome
        = .ok (warnings, runningCount [taskOn "fam:4".toList "RUNNING".toList]) ∧
      (∀ a b : GoString,
        Sprintln ["WARNING: task uses".toList, a, "but service definition is".toList, b]
          ∉ warnings) ∧
      (true = false →
        warnings = if runningCount [taskOn "fam:4".toList "RUNNING".toList] = 0
          then [noRunningWarning] else []) :=
  ⟨by decide,
   CheckServiceTasks_unknown (awsWithTasks [taskOn "fam:4".toList "RUNNING".toList])
     "cluster".toList "web".toList "fam:5".toList true [taskOn "fam:4".toList "RUNNING".toList]
     (by rfl) (by decide) (by decide)⟩

/-- C16 fails on the code. The check that rejects more than one container definition
passes for an empty list, and the access to the first element that follows is out of
range: `makeTaskDefinition` (and with it `CreateTask`) panics on a descriptor that
declares no container definition, and `UpdateService` panics on a task definition
without container definitions, with a full image as well as with the shorthand. -/
theorem index_zero_out_of_range :
    makeTaskDefinition
        (hostWith "descriptor".toList { ContainerDefinitions := [], Family := "fam".toList })
        "task.json".toList
      = ⟨[], .panic⟩ ∧
    CreateTask silentAws
        (hostWith "descriptor".toList { ContainerDefinitions := [], Family := "fam".toList })
        "task.json".toList
      = ⟨[.out "Registering Task Definition...\n\n".toList], .panic⟩ ∧
    UpdateService
        (awsFor [serviceOn "web".toList "td/fam:1".toList [] []] []
          (definitionOf "fam".toList []) [])
        "cluster".toList "web".toList "repo/img:new".toList
      = ⟨[.out "Updating service web\n".toList,
          .call (.DescribeServices "cluster".toList ["web".toList]),
          .call (.DescribeTaskDefinition "td/fam:1".toList),
          .out "  - Task Definition: fam\n".toList],
         .panic⟩ ∧
    UpdateService
        (awsFor [serviceOn "web".toList "td/fam:1".toList [] []] []
          (definitionOf "fam".toList []) [])
        "cluster".toList "web".toList ":new".toList
      = ⟨[.out "Updating service web\n".toList,
          .call (.DescribeServices "cluster".toList ["web".toList]),
          .call (.DescribeTaskDefinition "td/fam:1".toList)],
         .panic⟩ := by
  refine ⟨by decide, by decide, by decide, by decide⟩

end Ecsman
